import Mathlib

/-!
Verification development for the imalink-desktop import pipeline
(`src/main.ts`): companion-file grouping (`groupCompanionFiles`) and the
sequential import orchestration (`startImport`).

Strings are modelled with Lean `String` (a wrapper around `List Char`);
all path manipulation from the source (`split('/')`, `lastIndexOf('.')`,
`substring`, `toLowerCase`) is embedded as structurally recursive
functions over `List Char` so that every definition evaluates by `decide`.
JavaScript `toLowerCase` is restricted to its ASCII action, which is the
only case exercised by file extensions.
-/

set_option maxRecDepth 10000

deriving instance DecidableEq for Except

namespace Imalink

/-- JS `String.prototype.split(c)` for a one-character separator:
splits into (possibly empty) segments; `"".split(c) = [""]`. -/
def splitOnChar (c : Char) : List Char → List (List Char)
  | [] => [[]]
  | x :: xs =>
    match splitOnChar c xs with
    | [] => if x = c then [[], []] else [[x]]
    | h :: t => if x = c then [] :: h :: t else (x :: h) :: t

/-- Join segments with a one-character separator (inverse direction of
`splitOnChar`, used for `parts.slice(0, -1).join('/')`). -/
def joinWithChar (c : Char) : List (List Char) → List Char
  | [] => []
  | [s] => s
  | s :: rest => s ++ c :: joinWithChar c rest

/-- Index of the last `'.'` in a character list
(JS `fileName.lastIndexOf('.')`, `none` standing for `-1`). -/
def lastDotIdx : List Char → Option Nat
  | [] => none
  | c :: cs =>
    match lastDotIdx cs with
    | some i => some (i + 1)
    | none => if c = '.' then some 0 else none

/-- Does the character list contain a `'.'`?  (`lastIndexOf('.') !== -1`). -/
def hasDot : List Char → Bool
  | [] => false
  | c :: cs => if c = '.' then true else hasDot cs

/-- ASCII restriction of JS `toLowerCase` on a single character. -/
def lowerChar (c : Char) : Char :=
  if 65 ≤ c.toNat ∧ c.toNat ≤ 90 then Char.ofNat (c.toNat + 32) else c

/-- The filename component of a path: `parts[parts.length - 1]` after
`filePath.split('/')`. -/
def fileNameChars (p : String) : List Char :=
  (splitOnChar '/' p.toList).getLastD []

/-- The directory component: `parts.slice(0, -1).join('/')`. -/
def directoryChars (p : String) : List Char :=
  joinWithChar '/' (splitOnChar '/' p.toList).dropLast

/-- A JavaScript runtime value flowing through the `priority` variable of
`groupCompanionFiles`: either a number (an own entry of the table, or the
`|| 99` default), or a truthy non-numeric object inherited from
`Object.prototype` via the prototype chain, carried together with the
string its number-hint `ToPrimitive` conversion produces. -/
inductive JsPriority where
  | num (n : Nat)
  | obj (prim : String)
  deriving DecidableEq

/-- Is this priority an actual number? -/
def JsPriority.isNum : JsPriority → Bool
  | .num _ => true
  | .obj _ => false

/-- Numeric value of a priority (0 on the unreachable-for-comparisons
object case). -/
def JsPriority.toNum : JsPriority → Nat
  | .num n => n
  | .obj _ => 0

/-- Lexicographic (UTF-16 code order) string less-than, JS `<` on two
strings. -/
def chStrLt : List Char → List Char → Bool
  | [], [] => false
  | [], _ :: _ => true
  | _ :: _, [] => false
  | a :: as, b :: bs => if a = b then chStrLt as bs else decide (a < b)

/-- JS `<` on priority values: plain `Nat` comparison between two numbers;
false whenever one side is an inherited object and the other a number
(the object's primitive string converts to `NaN`, and both reachable
primitive strings are non-numeric); lexicographic string comparison
between two inherited objects (both sides `ToPrimitive` to strings). -/
def jsLt : JsPriority → JsPriority → Bool
  | .num a, .num b => decide (a < b)
  | .num _, .obj _ => false
  | .obj _, .num _ => false
  | .obj a, .obj b => chStrLt a.toList b.toList

/-- The extension priority table local to `groupCompanionFiles`
(`src/main.ts` lines 181-193); lower number = preferred master. -/
def priorities : List (String × Nat) :=
  [("jpg", 1), ("jpeg", 1), ("heic", 2), ("png", 3),
   ("cr2", 10), ("nef", 10), ("arw", 10), ("dng", 10),
   ("orf", 10), ("rw2", 10), ("raw", 10)]

/-- `priorities[ext] || 99` (line 208).  Property access on the object
literal consults the prototype chain: an own table entry (all nonzero,
hence truthy) wins; otherwise the only inherited `Object.prototype` member
names that survive `toLowerCase` — `constructor` (the `Object`
constructor function) and `__proto__` (the `Object.prototype` object) —
yield truthy non-numeric values, so the `|| 99` default does not fire for
them; every other extension reads `undefined` and falls back to 99.  The
`obj` payloads are the number-hint `ToPrimitive` strings of those two
values. -/
def priorityOf (ext : String) : JsPriority :=
  match priorities.lookup ext with
  | some p => .num p
  | none =>
    if ext = "constructor" then .obj "function Object() \x7b [native code] \x7d"
    else if ext = "__proto__" then .obj "[object Object]"
    else .num 99

/-- Per-path parsing done by the grouping loop (`src/main.ts` lines
198-211): returns `(groupKey, ext, priority)` or `none` when the filename
has no `'.'` (such paths are skipped).  The group key is
`directory + "/" + basename` with `basename` the filename up to its last
dot, and the extension is the lower-cased remainder after that dot. -/
def parsePathParts (filePath : String) : Option (String × String × JsPriority) :=
  match lastDotIdx (fileNameChars filePath) with
  | none => none
  | some lastDot =>
    some (⟨directoryChars filePath ++ '/' :: (fileNameChars filePath).take lastDot⟩,
          ⟨((fileNameChars filePath).drop (lastDot + 1)).map lowerChar⟩,
          priorityOf ⟨((fileNameChars filePath).drop (lastDot + 1)).map lowerChar⟩)

/-- The grouping key of a path, when it has one. -/
def groupKeyOf (p : String) : Option String :=
  (parsePathParts p).map Prod.fst

/-- The priority of a path's (lower-cased) extension; 99 when there is no
extension (unreachable for grouped files). -/
def pathPriority (p : String) : JsPriority :=
  match parsePathParts p with
  | some t => t.2.2
  | none => .num 99

/-- Accumulator entry of the grouping map: parallel `files` / `exts` /
`priorities` arrays, exactly as in the source. -/
structure GroupAcc where
  files : List String
  exts : List String
  prios : List JsPriority
  deriving DecidableEq

/-- Insert one file into the ordered grouping map: appended to an existing
bucket with the same key, else a fresh bucket is appended at the end
(JS `Map` insertion-order semantics). -/
def addToGroups (groups : List (String × GroupAcc)) (key filePath ext : String)
    (priority : JsPriority) : List (String × GroupAcc) :=
  match groups with
  | [] => [(key, ⟨[filePath], [ext], [priority]⟩)]
  | (k, g) :: rest =>
    if k = key then
      (k, ⟨g.files ++ [filePath], g.exts ++ [ext], g.prios ++ [priority]⟩) :: rest
    else
      (k, g) :: addToGroups rest key filePath ext priority

/-- One iteration of the grouping loop body. -/
def groupStep (groups : List (String × GroupAcc)) (filePath : String) :
    List (String × GroupAcc) :=
  match parsePathParts filePath with
  | none => groups
  | some (key, ext, priority) => addToGroups groups key filePath ext priority

/-- The master-selection scan (`src/main.ts` lines 230-238): the JS `<`
comparison (`jsLt`), so on numeric priorities the first index attaining
the minimum wins, while any comparison against an inherited-object
priority is false. `i` is the index of the head of `l` in the full
priority array. -/
def masterScan : List JsPriority → Nat → Nat → JsPriority → Nat × JsPriority
  | [], _, bestIdx, best => (bestIdx, best)
  | p :: rest, i, bestIdx, best =>
    if jsLt p best then masterScan rest (i + 1) i p
    else masterScan rest (i + 1) bestIdx best

/-- Master index and lowest priority for a bucket's priority array.
The `[]` case is unreachable: every bucket holds at least one file. -/
def selectMaster : List JsPriority → Nat × JsPriority
  | [] => (0, .num 0)
  | p :: rest => masterScan rest 1 0 p

/-- Specification-side scan on plain `Nat` priorities; `masterScan`
coincides with it whenever every priority is numeric. -/
def natScan : List Nat → Nat → Nat → Nat → Nat × Nat
  | [], _, bestIdx, best => (bestIdx, best)
  | p :: rest, i, bestIdx, best =>
    if p < best then natScan rest (i + 1) i p
    else natScan rest (i + 1) bestIdx best

/-- Specification-side master selection on plain `Nat` priorities. -/
def natSelect : List Nat → Nat × Nat
  | [] => (0, 0)
  | p :: rest => natScan rest 1 0 p

/-- The `CompanionGroup` record of the source. -/
structure CompanionGroup where
  basename : String
  masterFile : String
  companionFiles : List String
  allFiles : List String
  masterPriority : JsPriority
  deriving DecidableEq

def dummyGroup : CompanionGroup :=
  { basename := "", masterFile := "", companionFiles := [], allFiles := [],
    masterPriority := .num 0 }

/-- Convert one bucket to a `CompanionGroup` (`src/main.ts` lines 226-250):
`basename = groupKey.split('/').pop() || groupKey`, master by scan,
companions by index filter (`eraseIdx`), `allFiles` in discovery order. -/
def toCompanionGroup (groupKey : String) (g : GroupAcc) : CompanionGroup :=
  let pop : String := ⟨(splitOnChar '/' groupKey.toList).getLastD []⟩
  let basename := if pop = "" then groupKey else pop
  let sel := selectMaster g.prios
  { basename := basename
    masterFile := g.files.getD sel.1 ""
    companionFiles := g.files.eraseIdx sel.1
    allFiles := g.files
    masterPriority := sel.2 }

/-- `groupCompanionFiles` (`src/main.ts` lines 179-253). -/
def groupCompanionFiles (filePaths : List String) : List CompanionGroup :=
  (filePaths.foldl groupStep []).map fun kg => toCompanionGroup kg.1 kg.2

/-! ## Orchestration data model (`startImport`, `src/main.ts` lines 255-606)

External collaborators (the Tauri `invoke` targets) are modelled as pure
oracles returning `Except String`; a thrown JS error is the `.error` case
and `String(error)` is the payload itself (for errors built with
`new Error(msg)` the source prepends `"Error: "`).  Every collaborator
call is additionally recorded in an event trace, so that claims about
which external calls happen (or do not happen) are statable. -/

/-- `ImportedInfo`: the `imported_info` object attached to file entries. -/
structure ImportedInfo where
  imported_at : String
  original_selection : Option String
  deriving DecidableEq

/-- The `local_storage_info` object (see the repository's
local_storage_info schema document). -/
structure LocalStorageInfo where
  import_mode : String
  source_path : String
  imported_from : String
  companion_files : List String
  storage_path : Option String
  deriving DecidableEq

/-- `ImageFileSchema` (`src/main.ts` lines 70-77).  Note the type carries
no preview, hash or EXIF fields: companion entries are metadata-free by
construction. -/
structure ImageFileSchema where
  filename : String
  file_size : Option Nat
  format : Option String
  is_raw : Option Bool
  local_storage_info : Option LocalStorageInfo
  imported_info : Option ImportedInfo
  deriving DecidableEq

def dummyEntry : ImageFileSchema :=
  { filename := "", file_size := none, format := none, is_raw := none,
    local_storage_info := none, imported_info := none }

/-- `PhotoCreateSchema` restricted to the fields the orchestrator reads or
writes (`image_file_list`, `input_channel_id`) plus the identity hash; the
preview/EXIF payload fields are carried opaquely by the extractor response
and never touched by `startImport`. -/
structure PhotoCreateSchema where
  hothash : String
  image_file_list : Option (List ImageFileSchema)
  input_channel_id : Option Nat
  deriving DecidableEq

def dummySchema : PhotoCreateSchema :=
  { hothash := "", image_file_list := none, input_channel_id := none }

/-- `PhotoCreateResponse` restricted to the fields the orchestrator reads. -/
structure PhotoCreateResponse where
  hothash : String
  is_duplicate : Option Bool
  deriving DecidableEq

/-- One external call made by the orchestrator. -/
inductive CallEvent where
  | extractCall (filePath : String)
  | copyCall (sourcePath destinationDir : String)
  | sizeCall (filePath : String)
  | uploadCall (schema : PhotoCreateSchema)
  deriving DecidableEq

/-- The external collaborators consumed by `startImport`. -/
structure Collaborators where
  process_image_file : String → Except String PhotoCreateSchema
  copy_file_to_storage : String → String → Except String String
  get_file_size : String → Except String Nat
  upload_photo_create_schema : PhotoCreateSchema → Except String PhotoCreateResponse

/-- JS truthiness of an optional string (`null`/`undefined` and `""` are
falsy). -/
def strTruthy : Option String → Bool
  | none => false
  | some s => !(s = "")

/-- JS truthiness of an optional number (`null`/`undefined` and `0` are
falsy). -/
def natTruthy : Option Nat → Bool
  | none => false
  | some n => !(n = 0)

/-- JS truthiness of an optional boolean. -/
def boolTruthy : Option Bool → Bool
  | none => false
  | some b => b

/-- Ambient configuration read by `startImport`: auth token, selected
channel, import-mode radio, destination input, originally selected source
directory, and the current clock reading used for `imported_at`. -/
structure ImportConfig where
  authToken : Option String
  selectedInputChannelId : Option Nat
  isCopyMode : Bool
  destinationPath : Option String
  selectedDirPath : Option String
  now : String

/-- `sub` is a leading segment of `s` (character lists). -/
def chLeads : List Char → List Char → Bool
  | [], _ => true
  | _ :: _, [] => false
  | a :: as, b :: bs => a = b && chLeads as bs

/-- JS `String.prototype.includes` on character lists. -/
def chContains (sub : List Char) : List Char → Bool
  | [] => chLeads sub []
  | c :: bs => chLeads sub (c :: bs) || chContains sub bs

/-- The origin-type heuristic (`src/main.ts` lines 385, 436):
`selectedDirPath?.includes("/media/") || selectedDirPath?.includes("/mnt/")`. -/
def importedFrom (cfg : ImportConfig) : String :=
  match cfg.selectedDirPath with
  | some d =>
    if chContains "/media/".toList d.toList || chContains "/mnt/".toList d.toList
    then "sd_card" else "archive"
  | none => "archive"

/-- `path.split('/').pop() || path` (used for all displayed filenames). -/
def baseNameOf (p : String) : String :=
  let n : String := ⟨(splitOnChar '/' p.toList).getLastD []⟩
  if n = "" then p else n

/-- One entry of the `results` array of `startImport` (line 333). -/
structure ImportResult where
  file : String
  success : Bool
  error : Option String
  hothash : Option String
  isDuplicate : Option Bool
  isSkipped : Option Bool
  skipReason : Option String
  companionCount : Nat
  allFiles : List String
  deriving DecidableEq

def dummyResult : ImportResult :=
  { file := "", success := false, error := none, hothash := none,
    isDuplicate := none, isSkipped := none, skipReason := none,
    companionCount := 0, allFiles := [] }

/-- The skipped-record push (`src/main.ts` lines 367-374). -/
def skipResultOf (group : CompanionGroup) (coreError : String) : ImportResult :=
  { file := baseNameOf group.masterFile, success := false, error := none,
    hothash := none, isDuplicate := none, isSkipped := some true,
    skipReason := some ("Cannot process file: " ++ coreError),
    companionCount := group.companionFiles.length,
    allFiles := group.allFiles.map baseNameOf }

/-- The failure-record push at the group boundary (lines 508-514). -/
def failResultOf (group : CompanionGroup) (e : String) : ImportResult :=
  { file := baseNameOf group.masterFile, success := false, error := some e,
    hothash := none, isDuplicate := none, isSkipped := none, skipReason := none,
    companionCount := group.companionFiles.length,
    allFiles := group.allFiles.map baseNameOf }

/-- The success-record push (lines 498-505). -/
def successResultOf (group : CompanionGroup) (res : PhotoCreateResponse) :
    ImportResult :=
  { file := baseNameOf group.masterFile, success := true, error := none,
    hothash := some res.hothash, isDuplicate := res.is_duplicate,
    isSkipped := none, skipReason := none,
    companionCount := group.companionFiles.length,
    allFiles := group.allFiles.map baseNameOf }

/-- Master-file storage placement (lines 389-407): in copy mode delegate to
the copy collaborator, a failure becoming the thrown
`Error("Kunne ikke kopiere fil: " + copyError)`; in register mode the file
stays where it is.  Returns the final path and the calls made. -/
def placeMaster (cfg : ImportConfig) (C : Collaborators) (masterFilePath : String) :
    Except String String × List CallEvent :=
  if cfg.isCopyMode && strTruthy cfg.destinationPath then
    match C.copy_file_to_storage masterFilePath (cfg.destinationPath.getD "") with
    | .ok finalPath =>
      (.ok finalPath, [.copyCall masterFilePath (cfg.destinationPath.getD "")])
    | .error copyError =>
      (.error ("Error: Kunne ikke kopiere fil: " ++ copyError),
       [.copyCall masterFilePath (cfg.destinationPath.getD "")])
  else (.ok masterFilePath, [])

/-- The master file's `local_storage_info` (lines 382-387, 399, 406). -/
def masterLsi (cfg : ImportConfig) (group : CompanionGroup) (finalPath : String) :
    LocalStorageInfo :=
  { import_mode := if cfg.isCopyMode then "copy" else "register",
    source_path := group.masterFile,
    imported_from := importedFrom cfg,
    companion_files := group.allFiles.map baseNameOf,
    storage_path := some finalPath }

/-- The `imported_info` object attached during this batch. -/
def batchImportedInfo (cfg : ImportConfig) : ImportedInfo :=
  { imported_at := cfg.now, original_selection := cfg.selectedDirPath }

/-- `companionFileName.split('.').pop()?.toLowerCase() || "unknown"` (line 461). -/
def companionExtOf (companionFileName : String) : String :=
  let e : List Char :=
    ((splitOnChar '.' companionFileName.toList).getLastD []).map lowerChar
  if e = [] then "unknown" else ⟨e⟩

/-- The companion `format` mapping (lines 462-463). -/
def companionFormatOf (ext : String) : String :=
  if ext = "jpg" || ext = "jpeg" then "jpeg"
  else if ext = "cr2" || ext = "nef" || ext = "arw" || ext = "dng" ||
       ext = "orf" || ext = "rw2" then "raw"
  else ext

/-- The `local_storage_info` skeleton of one companion, before its
`storage_path` is set (lines 433-438). -/
def companionBaseLsi (cfg : ImportConfig) (allFilenames : List String)
    (companionPath : String) : LocalStorageInfo :=
  { import_mode := if cfg.isCopyMode then "copy" else "register",
    source_path := companionPath,
    imported_from := importedFrom cfg,
    companion_files := allFilenames,
    storage_path := none }

/-- Companion storage placement (lines 440-457): in copy mode a copy
failure is tolerated and the original path is substituted; returns the
final path, the `local_storage_info` with `storage_path` set, and the
calls made. -/
def companionPlaced (cfg : ImportConfig) (C : Collaborators)
    (allFilenames : List String) (companionPath : String) :
    String × LocalStorageInfo × List CallEvent :=
  if cfg.isCopyMode && strTruthy cfg.destinationPath then
    match C.copy_file_to_storage companionPath (cfg.destinationPath.getD "") with
    | .ok fp =>
      (fp, { companionBaseLsi cfg allFilenames companionPath with
              storage_path := some fp },
       [.copyCall companionPath (cfg.destinationPath.getD "")])
    | .error _ =>
      (companionPath, { companionBaseLsi cfg allFilenames companionPath with
              storage_path := some companionPath },
       [.copyCall companionPath (cfg.destinationPath.getD "")])
  else
    (companionPath, { companionBaseLsi cfg allFilenames companionPath with
            storage_path := some companionPath }, [])

/-- Processing of one companion file (lines 427-477): tolerated copy, then
the `get_file_size` call whose failure escapes (`.error`), then the
metadata-free entry. -/
def processCompanion (cfg : ImportConfig) (C : Collaborators)
    (allFilenames : List String) (companionPath : String) :
    Except String ImageFileSchema × List CallEvent :=
  match C.get_file_size (companionPlaced cfg C allFilenames companionPath).1 with
  | .error e =>
    (.error e,
     (companionPlaced cfg C allFilenames companionPath).2.2 ++
       [.sizeCall (companionPlaced cfg C allFilenames companionPath).1])
  | .ok sz =>
    (.ok { filename := baseNameOf companionPath, file_size := some sz,
           format := some (companionFormatOf (companionExtOf (baseNameOf companionPath))),
           is_raw := some
             (companionFormatOf (companionExtOf (baseNameOf companionPath)) = "raw"),
           local_storage_info :=
             some (companionPlaced cfg C allFilenames companionPath).2.1,
           imported_info := some (batchImportedInfo cfg) },
     (companionPlaced cfg C allFilenames companionPath).2.2 ++
       [.sizeCall (companionPlaced cfg C allFilenames companionPath).1])

/-- The companion loop (lines 427-477): sequential; the first escaping
exception aborts the loop (and, at the caller, fails the group). -/
def processCompanions (cfg : ImportConfig) (C : Collaborators)
    (allFilenames : List String) :
    List String → Except String (List ImageFileSchema) × List CallEvent
  | [] => (.ok [], [])
  | c :: rest =>
    match (processCompanion cfg C allFilenames c).1 with
    | .error e => (.error e, (processCompanion cfg C allFilenames c).2)
    | .ok entry =>
      match (processCompanions cfg C allFilenames rest).1 with
      | .error e =>
        (.error e,
         (processCompanion cfg C allFilenames c).2 ++
           (processCompanions cfg C allFilenames rest).2)
      | .ok entries =>
        (.ok (entry :: entries),
         (processCompanion cfg C allFilenames c).2 ++
           (processCompanions cfg C allFilenames rest).2)

/-- Lines 413-424: `image_file_list[0]` is enriched only when the list is
nonempty. -/
def enrichHead (lsi : LocalStorageInfo) (info : ImportedInfo) :
    List ImageFileSchema → List ImageFileSchema
  | [] => []
  | e :: rest =>
    { e with local_storage_info := some lsi, imported_info := some info } :: rest

/-- The descriptor submitted to the uploader (lines 412-480): enriched
head, appended companion entries, channel id attached. -/
def assembledSchema (cfg : ImportConfig) (schema0 : PhotoCreateSchema)
    (lsi : LocalStorageInfo) (entries : List ImageFileSchema)
    (inputChannelId : Nat) : PhotoCreateSchema :=
  { schema0 with
      image_file_list :=
        some (enrichHead lsi (batchImportedInfo cfg)
                (schema0.image_file_list.getD []) ++ entries),
      input_channel_id := some inputChannelId }

/-- Per-group processing (loop body, lines 335-516): extractor failure
gives a skipped record; any exception after extraction (master-copy error,
companion `get_file_size` error, upload error) is caught at the group
boundary and gives a failed record; otherwise a success record. -/
def processGroup (cfg : ImportConfig) (C : Collaborators) (inputChannelId : Nat)
    (group : CompanionGroup) : ImportResult × List CallEvent :=
  match C.process_image_file group.masterFile with
  | .error coreError =>
    (skipResultOf group coreError, [.extractCall group.masterFile])
  | .ok schema0 =>
    match (placeMaster cfg C group.masterFile).1 with
    | .error e =>
      (failResultOf group e,
       .extractCall group.masterFile :: (placeMaster cfg C group.masterFile).2)
    | .ok finalPath =>
      match (processCompanions cfg C (group.allFiles.map baseNameOf)
              group.companionFiles).1 with
      | .error e =>
        (failResultOf group e,
         .extractCall group.masterFile ::
           ((placeMaster cfg C group.masterFile).2 ++
            (processCompanions cfg C (group.allFiles.map baseNameOf)
              group.companionFiles).2))
      | .ok entries =>
        match C.upload_photo_create_schema
            (assembledSchema cfg schema0 (masterLsi cfg group finalPath) entries
              inputChannelId) with
        | .error e =>
          (failResultOf group e,
           .extractCall group.masterFile ::
             ((placeMaster cfg C group.masterFile).2 ++
              (processCompanions cfg C (group.allFiles.map baseNameOf)
                group.companionFiles).2 ++
              [.uploadCall (assembledSchema cfg schema0
                (masterLsi cfg group finalPath) entries inputChannelId)]))
        | .ok res =>
          (successResultOf group res,
           .extractCall group.masterFile ::
             ((placeMaster cfg C group.masterFile).2 ++
              (processCompanions cfg C (group.allFiles.map baseNameOf)
                group.companionFiles).2 ++
              [.uploadCall (assembledSchema cfg schema0
                (masterLsi cfg group finalPath) entries inputChannelId)]))

/-- The sequential loop over groups (line 335): one result per group, in
order, traces concatenated. -/
def processGroups (cfg : ImportConfig) (C : Collaborators) (inputChannelId : Nat) :
    List CompanionGroup → List ImportResult × List CallEvent
  | [] => ([], [])
  | g :: rest =>
    ((processGroup cfg C inputChannelId g).1 ::
       (processGroups cfg C inputChannelId rest).1,
     (processGroup cfg C inputChannelId g).2 ++
       (processGroups cfg C inputChannelId rest).2)

/-- `startImport` (lines 255-335): the empty-selection guard and the three
precondition checks (auth token, input channel, destination directory in
copy mode) run synchronously before any grouping or external call; `none`
models the early return with no `results` array. -/
def startImport (cfg : ImportConfig) (C : Collaborators)
    (selectedFiles : List String) :
    Option (List ImportResult) × List CallEvent :=
  if selectedFiles.length = 0 then (none, [])
  else if !(strTruthy cfg.authToken) then (none, [])
  else if !(natTruthy cfg.selectedInputChannelId) then (none, [])
  else if cfg.isCopyMode && !(strTruthy cfg.destinationPath) then (none, [])
  else
    (some (processGroups cfg C (cfg.selectedInputChannelId.getD 0)
            (groupCompanionFiles selectedFiles)).1,
     (processGroups cfg C (cfg.selectedInputChannelId.getD 0)
       (groupCompanionFiles selectedFiles)).2)

/-! ## Outcome classification (lines 519-522) -/

/-- `r.success && !r.isDuplicate && !r.isSkipped` (the `successCount` filter). -/
def isNewSuccess (r : ImportResult) : Bool :=
  r.success && !(boolTruthy r.isDuplicate) && !(boolTruthy r.isSkipped)

/-- `r.success && r.isDuplicate` (the `duplicateCount` filter). -/
def isDuplicateRes (r : ImportResult) : Bool :=
  r.success && boolTruthy r.isDuplicate

/-- `r.isSkipped` (the `skippedCount` filter). -/
def isSkippedRes (r : ImportResult) : Bool :=
  boolTruthy r.isSkipped

/-- `!r.success && !r.isSkipped` (the `failCount` filter). -/
def isFailedRes (r : ImportResult) : Bool :=
  !r.success && !(boolTruthy r.isSkipped)

/-- How many of the four summary filters a record satisfies. -/
def classCount (r : ImportResult) : Nat :=
  (if isNewSuccess r then 1 else 0) + (if isDuplicateRes r then 1 else 0) +
    (if isSkippedRes r then 1 else 0) + (if isFailedRes r then 1 else 0)

/-- The four outcome classifications of the spec. -/
inductive Classification where
  | success
  | duplicate
  | skipped
  | failed
  deriving DecidableEq

/-- Classification of a result record, agreeing with the four filters on
every record the orchestrator produces. -/
def classify (r : ImportResult) : Classification :=
  if isSkippedRes r then .skipped
  else if isDuplicateRes r then .duplicate
  else if r.success then .success
  else .failed

/-- Schemas submitted to the uploader, read off the call trace. -/
def uploadedSchemas (trace : List CallEvent) : List PhotoCreateSchema :=
  trace.foldr
    (fun ev acc => match ev with | .uploadCall s => s :: acc | _ => acc) []

/-! ## Concrete fixtures used by the witnesses -/

/-- A well-behaved extractor: single-entry file list for the master, as
described in the external-interface contract. -/
def sampleExtract (p : String) : Except String PhotoCreateSchema :=
  .ok { hothash := "h1",
        image_file_list := some
          [{ filename := baseNameOf p, file_size := some 1,
             format := some "jpeg", is_raw := some false,
             local_storage_info := none, imported_info := none }],
        input_channel_id := none }

/-- Collaborators where every call succeeds. -/
def sampleC : Collaborators :=
  { process_image_file := sampleExtract,
    copy_file_to_storage := fun p _ => .ok ("/dst/" ++ baseNameOf p),
    get_file_size := fun _ => .ok 5,
    upload_photo_create_schema := fun _ =>
      .ok { hothash := "h1", is_duplicate := some false } }

/-- A synthetic extractor failing exactly on `/d/IMG_2.nef`. -/
def skip2C : Collaborators :=
  { sampleC with
    process_image_file := fun p =>
      if p = "/d/IMG_2.nef" then .error "boom" else sampleExtract p }

/-- An uploader reporting a pre-existing identity. -/
def dupC : Collaborators :=
  { sampleC with
    upload_photo_create_schema := fun _ =>
      .ok { hothash := "h1", is_duplicate := some true } }

/-- A copy collaborator failing exactly on the master `/d/IMG_1.jpg`. -/
def copyFailMasterC : Collaborators :=
  { sampleC with
    copy_file_to_storage := fun p _ =>
      if p = "/d/IMG_1.jpg" then .error "disk full"
      else .ok ("/dst/" ++ baseNameOf p) }

/-- A copy collaborator failing exactly on the companion `/d/IMG_1.cr2`. -/
def copyFailCompC : Collaborators :=
  { sampleC with
    copy_file_to_storage := fun p _ =>
      if p = "/d/IMG_1.cr2" then .error "disk full"
      else .ok ("/dst/" ++ baseNameOf p) }

/-- A size collaborator throwing exactly on `/d/IMG_1.cr2` (reached at the
original path after the tolerated companion-copy failure). -/
def sizeFailC : Collaborators :=
  { copyFailCompC with
    get_file_size := fun p =>
      if p = "/d/IMG_1.cr2" then .error "stat failed" else .ok 5 }

/-- An extractor whose response carries an empty file-entry list. -/
def emptyListC : Collaborators :=
  { sampleC with
    process_image_file := fun _ =>
      .ok { hothash := "h1", image_file_list := some [],
            input_channel_id := none } }

/-- Register-mode configuration with all preconditions met. -/
def cfgReg : ImportConfig :=
  { authToken := some "t", selectedInputChannelId := some 1,
    isCopyMode := false, destinationPath := none,
    selectedDirPath := some "/media/card", now := "2026-01-01T00:00:00.000Z" }

/-- Copy-mode configuration with all preconditions met. -/
def cfgCopy : ImportConfig :=
  { cfgReg with isCopyMode := true, destinationPath := some "/dst" }

/-- The group formed from `/d/IMG_1.jpg` and `/d/IMG_1.cr2`. -/
def groupA : CompanionGroup :=
  (groupCompanionFiles ["/d/IMG_1.jpg", "/d/IMG_1.cr2"]).getD 0 dummyGroup

/-- Three single-file groups, the second a lone `.nef`. -/
def groups3 : List CompanionGroup :=
  groupCompanionFiles ["/d/IMG_1.jpg", "/d/IMG_2.nef", "/d/IMG_3.jpg"]

/-- The extractor output for the master `/d/IMG_1.jpg` in the fixtures. -/
def schemaA : PhotoCreateSchema :=
  { hothash := "h1",
    image_file_list := some
      [{ filename := "IMG_1.jpg", file_size := some 1, format := some "jpeg",
         is_raw := some false, local_storage_info := none,
         imported_info := none }],
    input_channel_id := none }

/-- The response returned by the duplicate-reporting uploader fixture. -/
def resDup : PhotoCreateResponse := { hothash := "h1", is_duplicate := some true }

/-- The extractor output for the lone-nef group fixture. -/
def schemaB : PhotoCreateSchema :=
  { hothash := "h1",
    image_file_list := some
      [{ filename := "IMG_2.nef", file_size := some 1, format := some "jpeg",
         is_raw := some false, local_storage_info := none,
         imported_info := none }],
    input_channel_id := none }

/-- The group formed from the single path `/d/IMG_2.nef`. -/
def groupB : CompanionGroup :=
  (groupCompanionFiles ["/d/IMG_2.nef"]).getD 0 dummyGroup

/-- The companion entry produced for `/d/IMG_1.cr2` in register mode with
the all-succeeding collaborators. -/
def entriesA : List ImageFileSchema :=
  [{ filename := "IMG_1.cr2", file_size := some 5, format := some "raw",
     is_raw := some true,
     local_storage_info := some
       { import_mode := "register", source_path := "/d/IMG_1.cr2",
         imported_from := "sd_card",
         companion_files := ["IMG_1.jpg", "IMG_1.cr2"],
         storage_path := some "/d/IMG_1.cr2" },
     imported_info := some
       { imported_at := "2026-01-01T00:00:00.000Z",
         original_selection := some "/media/card" } }]

/-! ## Derived views and invariants used by the theorems -/

/-- Invariant of one bucket of the grouping map: at least one file, the
priority array is pointwise the priority of the parallel file array, and
every file parses to this bucket's key. -/
def GroupInv (k : String) (g : GroupAcc) : Prop :=
  g.files ≠ [] ∧ g.prios = g.files.map pathPriority ∧
    ∀ f ∈ g.files, groupKeyOf f = some k

/-- Combined invariant of the whole grouping map. -/
def BucketsInv (bs : List (String × GroupAcc)) : Prop :=
  (bs.map Prod.fst).Nodup ∧ ∀ kg ∈ bs, GroupInv kg.1 kg.2

/-- Concatenation of the file arrays over all buckets. -/
def bucketsFiles (bs : List (String × GroupAcc)) : List String :=
  bs.foldr (fun kg acc => kg.2.files ++ acc) []

/-- Concatenation of `allFiles` over a list of groups (the "union" of the
partition claim, as a multiset-respecting list). -/
def groupsFiles (gs : List CompanionGroup) : List String :=
  gs.foldr (fun g acc => g.allFiles ++ acc) []

/-- The total file count displayed by the batch summary
(`src/main.ts` line 538): the raw `selectedFiles.length`. -/
def totalFilesReported (selectedFiles : List String) : Nat := selectedFiles.length

/-- The number of files actually grouped, as the sum over groups of
1 + companion count (the spec's ResultAggregator contract; compare the
`scanDirectory` display at line 140, which sums `allFiles.length`). -/
def groupedFilesTotal (paths : List String) : Nat :=
  ((groupCompanionFiles paths).map fun g => 1 + g.companionFiles.length).sum

/-! ## Lemmas about master selection -/

theorem natScan_spec (l : List Nat) : ∀ i bi b : Nat,
    (natScan l i bi b).2 ≤ b ∧
    (∀ x ∈ l, (natScan l i bi b).2 ≤ x) ∧
    (((natScan l i bi b).1 = bi ∧ (natScan l i bi b).2 = b) ∨
      ∃ j, j < l.length ∧ (natScan l i bi b).1 = i + j ∧
        l.getD j 0 = (natScan l i bi b).2 ∧ (natScan l i bi b).2 < b ∧
        ∀ m, m < j → (natScan l i bi b).2 < l.getD m 0) := by
  induction l with
  | nil =>
    intro i bi b
    refine ⟨le_refl b, ?_, Or.inl ⟨rfl, rfl⟩⟩
    intro x hx
    cases hx
  | cons p rest ih =>
    intro i bi b
    by_cases hp : p < b
    · have h := ih (i + 1) i p
      simp only [natScan, if_pos hp]
      refine ⟨le_trans h.1 (le_of_lt hp), ?_, ?_⟩
      · intro x hx
        rcases List.mem_cons.mp hx with rfl | hx
        · exact h.1
        · exact h.2.1 x hx
      · rcases h.2.2 with ⟨h1, h2⟩ | ⟨j, hj, hji, hjv, hjb, hjm⟩
        · right
          refine ⟨0, by simp, ?_, ?_, ?_, ?_⟩
          · rw [h1]; omega
          · simpa using h2.symm
          · rw [h2]; exact hp
          · intro m hm; omega
        · right
          refine ⟨j + 1, by simpa using hj, by rw [hji]; omega, by simpa using hjv,
            lt_trans hjb hp, ?_⟩
          intro m hm
          cases m with
          | zero => simpa using hjb
          | succ m' => simpa using hjm m' (by omega)
    · have h := ih (i + 1) bi b
      simp only [natScan, if_neg hp]
      refine ⟨h.1, ?_, ?_⟩
      · intro x hx
        rcases List.mem_cons.mp hx with rfl | hx
        · exact le_trans h.1 (le_of_not_lt hp)
        · exact h.2.1 x hx
      · rcases h.2.2 with hL | ⟨j, hj, hji, hjv, hjb, hjm⟩
        · exact Or.inl hL
        · right
          refine ⟨j + 1, by simpa using hj, by rw [hji]; omega, by simpa using hjv,
            hjb, ?_⟩
          intro m hm
          cases m with
          | zero => simpa using lt_of_lt_of_le hjb (le_of_not_lt hp)
          | succ m' => simpa using hjm m' (by omega)

theorem natSelect_spec (p : Nat) (rest : List Nat) :
    (natSelect (p :: rest)).1 < (p :: rest).length ∧
    (p :: rest).getD (natSelect (p :: rest)).1 0 = (natSelect (p :: rest)).2 ∧
    (∀ x ∈ p :: rest, (natSelect (p :: rest)).2 ≤ x) ∧
    ∀ m, m < (natSelect (p :: rest)).1 →
      (natSelect (p :: rest)).2 < (p :: rest).getD m 0 := by
  have h := natScan_spec rest 1 0 p
  simp only [natSelect]
  rcases h.2.2 with ⟨h1, h2⟩ | ⟨j, hj, hji, hjv, hjb, hjm⟩
  · refine ⟨by rw [h1]; simp, by rw [h1, h2]; simp, ?_, ?_⟩
    · intro x hx
      rcases List.mem_cons.mp hx with rfl | hx
      · rw [h2]
      · exact h.2.1 x hx
    · intro m hm
      rw [h1] at hm
      omega
  · refine ⟨by rw [hji]; simp only [List.length_cons]; omega, ?_, ?_, ?_⟩
    · rw [hji, Nat.add_comm 1 j]
      simpa using hjv
    · intro x hx
      rcases List.mem_cons.mp hx with rfl | hx
      · exact le_of_lt hjb
      · exact h.2.1 x hx
    · intro m hm
      rw [hji] at hm
      cases m with
      | zero => simpa using hjb
      | succ m' => simpa using hjm m' (by omega)

/-- On an all-numeric priority list, the source scan `masterScan` computes
exactly the plain-`Nat` scan `natScan` on the unwrapped values. -/
theorem masterScan_eq_natScan (l : List JsPriority) : ∀ (i bi : Nat) (b : Nat),
    (∀ x ∈ l, x.isNum = true) →
    masterScan l i bi (.num b)
      = ((natScan (l.map JsPriority.toNum) i bi b).1,
         .num (natScan (l.map JsPriority.toNum) i bi b).2) := by
  induction l with
  | nil => intro i bi b _; rfl
  | cons p rest ih =>
    intro i bi b hnum
    have hp := hnum p (by simp)
    obtain ⟨pn, rfl⟩ : ∃ pn, p = .num pn := by
      cases p with
      | num n => exact ⟨n, rfl⟩
      | obj s => simp [JsPriority.isNum] at hp
    have hrest : ∀ x ∈ rest, x.isNum = true := fun x hx =>
      hnum x (List.mem_cons_of_mem _ hx)
    by_cases hlt : pn < b
    · simp only [masterScan, jsLt, List.map_cons, JsPriority.toNum, natScan,
        decide_eq_true_eq, if_pos hlt]
      exact ih (i + 1) i pn hrest
    · simp only [masterScan, jsLt, List.map_cons, JsPriority.toNum, natScan,
        decide_eq_true_eq, if_neg hlt]
      exact ih (i + 1) bi b hrest

/-- Regardless of how the JS comparisons resolve, the index returned by
`masterScan` is either the initial best index or an index of the scanned
list. -/
theorem masterScan_idx_bound (l : List JsPriority) : ∀ (i bi : Nat) (b : JsPriority),
    (masterScan l i bi b).1 = bi ∨
      ∃ j, j < l.length ∧ (masterScan l i bi b).1 = i + j := by
  induction l with
  | nil => intro i bi b; exact Or.inl rfl
  | cons p rest ih =>
    intro i bi b
    by_cases hlt : jsLt p b = true
    · simp only [masterScan, if_pos hlt]
      rcases ih (i + 1) i p with h | ⟨j, hj, hji⟩
      · exact Or.inr ⟨0, by simp, by rw [h]; omega⟩
      · exact Or.inr ⟨j + 1, by simpa using hj, by rw [hji]; omega⟩
    · simp only [masterScan, if_neg hlt]
      rcases ih (i + 1) bi b with h | ⟨j, hj, hji⟩
      · exact Or.inl h
      · exact Or.inr ⟨j + 1, by simpa using hj, by rw [hji]; omega⟩

theorem getD_map_pathPriority (l : List String) :
    ∀ i, i < l.length →
      (l.map pathPriority).getD i (.num 0) = pathPriority (l.getD i "") := by
  induction l with
  | nil => intro i hi; simp at hi
  | cons a l ih =>
    intro i hi
    cases i with
    | zero => simp
    | succ n => simpa using ih n (by simpa using hi)

/-! ## Bucket invariants of the grouping fold -/

theorem parse_fields {p k e : String} {pr : JsPriority}
    (h : parsePathParts p = some (k, e, pr)) :
    pathPriority p = pr ∧ groupKeyOf p = some k := by
  constructor
  · simp [pathPriority, h]
  · simp [groupKeyOf, h]

theorem addToGroups_inv {bs : List (String × GroupAcc)} {k f e : String} {pr : JsPriority}
    (hbs : ∀ kg ∈ bs, GroupInv kg.1 kg.2)
    (hf : parsePathParts f = some (k, e, pr)) :
    ∀ kg ∈ addToGroups bs k f e pr, GroupInv kg.1 kg.2 := by
  induction bs with
  | nil =>
    intro kg hkg
    simp only [addToGroups, List.mem_singleton] at hkg
    subst hkg
    refine ⟨by simp, by simp [(parse_fields hf).1], ?_⟩
    intro f' hf'
    simp only [List.mem_singleton] at hf'
    subst hf'
    exact (parse_fields hf).2
  | cons hd tl ih =>
    obtain ⟨k', g⟩ := hd
    intro kg hkg
    by_cases hkk : k' = k
    · simp only [addToGroups, if_pos hkk, List.mem_cons] at hkg
      rcases hkg with rfl | hkg
      · have hg := hbs (k', g) (by simp)
        have hg21 : g.prios = g.files.map pathPriority := hg.2.1
        refine ⟨by simp, ?_, ?_⟩
        · simp [hg21, (parse_fields hf).1]
        · intro f' hf'
          simp only [List.mem_append, List.mem_singleton] at hf'
          rcases hf' with hf' | rfl
          · exact hg.2.2 f' hf'
          · rw [hkk]
            exact (parse_fields hf).2
      · exact hbs kg (List.mem_cons_of_mem _ hkg)
    · simp only [addToGroups, if_neg hkk, List.mem_cons] at hkg
      rcases hkg with rfl | hkg
      · exact hbs (k', g) (by simp)
      · exact ih (fun kg' hkg' => hbs kg' (List.mem_cons_of_mem _ hkg')) kg hkg

theorem addToGroups_mem_keys {bs : List (String × GroupAcc)} {k f e : String}
    {pr : JsPriority} {x : String}
    (h : x ∈ (addToGroups bs k f e pr).map Prod.fst) :
    x ∈ bs.map Prod.fst ∨ x = k := by
  induction bs with
  | nil =>
    simp only [addToGroups, List.map_cons, List.map_nil, List.mem_singleton] at h
    exact Or.inr h
  | cons hd tl ih =>
    obtain ⟨k', g⟩ := hd
    by_cases hkk : k' = k
    · simp only [addToGroups, if_pos hkk, List.map_cons, List.mem_cons] at h
      rcases h with rfl | h
      · exact Or.inl (by simp)
      · exact Or.inl (by simp [h])
    · simp only [addToGroups, if_neg hkk, List.map_cons, List.mem_cons] at h
      rcases h with rfl | h
      · exact Or.inl (by simp)
      · rcases ih h with h' | h'
        · exact Or.inl (by simp [h'])
        · exact Or.inr h'

theorem addToGroups_keys_nodup {bs : List (String × GroupAcc)} {k f e : String}
    {pr : JsPriority} (h : (bs.map Prod.fst).Nodup) :
    ((addToGroups bs k f e pr).map Prod.fst).Nodup := by
  induction bs with
  | nil => simp [addToGroups]
  | cons hd tl ih =>
    obtain ⟨k', g⟩ := hd
    simp only [List.map_cons, List.nodup_cons] at h
    by_cases hkk : k' = k
    · simp only [addToGroups, if_pos hkk, List.map_cons, List.nodup_cons]
      exact ⟨h.1, h.2⟩
    · simp only [addToGroups, if_neg hkk, List.map_cons, List.nodup_cons]
      refine ⟨?_, ih h.2⟩
      intro hmem
      rcases addToGroups_mem_keys hmem with h' | h'
      · exact h.1 h'
      · exact hkk h'

theorem bucketsInv_groupStep {bs : List (String × GroupAcc)} {p : String}
    (h : BucketsInv bs) : BucketsInv (groupStep bs p) := by
  unfold groupStep
  cases hp : parsePathParts p with
  | none => exact h
  | some t =>
    obtain ⟨k, e, pr⟩ := t
    exact ⟨addToGroups_keys_nodup h.1, addToGroups_inv h.2 hp⟩

theorem bucketsInv_foldl (l : List String) :
    ∀ bs, BucketsInv bs → BucketsInv (l.foldl groupStep bs) := by
  induction l with
  | nil => intro bs h; exact h
  | cons p l ih =>
    intro bs h
    exact ih _ (bucketsInv_groupStep h)

theorem bucketsInv_of_paths (paths : List String) :
    BucketsInv (paths.foldl groupStep []) :=
  bucketsInv_foldl paths [] ⟨List.nodup_nil, by intro kg hkg; cases hkg⟩

theorem groupCompanionFiles_mem {paths : List String} {g : CompanionGroup}
    (h : g ∈ groupCompanionFiles paths) :
    ∃ kg, kg ∈ paths.foldl groupStep [] ∧ g = toCompanionGroup kg.1 kg.2 ∧
      GroupInv kg.1 kg.2 := by
  simp only [groupCompanionFiles, List.mem_map] at h
  obtain ⟨kg, hkg, hg⟩ := h
  exact ⟨kg, hkg, hg.symm, (bucketsInv_of_paths paths).2 kg hkg⟩

theorem getD_map_toNum (l : List String) :
    ∀ i, i < l.length →
      (l.map fun p => (pathPriority p).toNum).getD i 0
        = (pathPriority (l.getD i "")).toNum := by
  induction l with
  | nil => intro i hi; simp at hi
  | cons a l ih =>
    intro i hi
    cases i with
    | zero => simp
    | succ n => simpa using ih n (by simpa using hi)

theorem toCompanionGroup_master {k : String} {g : GroupAcc} (hinv : GroupInv k g)
    (hnum : ∀ f ∈ g.files, (pathPriority f).isNum = true) :
    ∃ i, i < (toCompanionGroup k g).allFiles.length ∧
      (toCompanionGroup k g).masterFile = (toCompanionGroup k g).allFiles.getD i "" ∧
      (toCompanionGroup k g).masterPriority
        = pathPriority ((toCompanionGroup k g).masterFile) ∧
      (∀ f ∈ (toCompanionGroup k g).allFiles,
        (toCompanionGroup k g).masterPriority.toNum ≤ (pathPriority f).toNum) ∧
      ∀ j, j < i → (toCompanionGroup k g).masterPriority.toNum
        < (pathPriority ((toCompanionGroup k g).allFiles.getD j "")).toNum := by
  obtain ⟨hne, hpar, _⟩ := hinv
  obtain ⟨f, fs, hfs⟩ : ∃ f fs, g.files = f :: fs := by
    cases hcase : g.files with
    | nil => exact absurd hcase hne
    | cons f fs => exact ⟨f, fs, rfl⟩
  obtain ⟨nf, hnf⟩ : ∃ n, pathPriority f = .num n := by
    have hn := hnum f (by rw [hfs]; simp)
    cases hp : pathPriority f with
    | num n => exact ⟨n, rfl⟩
    | obj s => rw [hp] at hn; simp [JsPriority.isNum] at hn
  have h2 : g.files.map (fun p => (pathPriority p).toNum)
      = nf :: (fs.map pathPriority).map JsPriority.toNum := by
    rw [hfs, List.map_cons, hnf, List.map_map]
    rfl
  have hsel : selectMaster g.prios
      = ((natSelect (g.files.map fun p => (pathPriority p).toNum)).1,
         .num (natSelect (g.files.map fun p => (pathPriority p).toNum)).2) := by
    have hnumrest : ∀ x ∈ fs.map pathPriority, x.isNum = true := by
      intro x hx
      obtain ⟨y, hy, rfl⟩ := List.mem_map.mp hx
      exact hnum y (by rw [hfs]; exact List.mem_cons_of_mem _ hy)
    have hbridge := masterScan_eq_natScan (fs.map pathPriority) 1 0 nf hnumrest
    have h1 : g.prios = pathPriority f :: fs.map pathPriority := by
      rw [hpar, hfs]; simp
    rw [h1, hnf]
    show masterScan (fs.map pathPriority) 1 0 (.num nf) = _
    rw [hbridge, h2]
    rfl
  have hfst : (selectMaster g.prios).1
      = (natSelect (nf :: (fs.map pathPriority).map JsPriority.toNum)).1 := by
    rw [hsel, h2]
  have hsnd : (selectMaster g.prios).2
      = .num (natSelect (nf :: (fs.map pathPriority).map JsPriority.toNum)).2 := by
    rw [hsel, h2]
  have hXlen : (nf :: (fs.map pathPriority).map JsPriority.toNum).length
      = g.files.length := by
    rw [← h2, List.length_map]
  have hspec := natSelect_spec nf ((fs.map pathPriority).map JsPriority.toNum)
  have hb : (selectMaster g.prios).1 < g.files.length := by
    rw [hfst, ← hXlen]
    exact hspec.1
  refine ⟨(selectMaster g.prios).1, ?_, ?_, ?_, ?_, ?_⟩
  · exact hb
  · rfl
  · show (selectMaster g.prios).2
      = pathPriority (g.files.getD (selectMaster g.prios).1 "")
    have hmem : g.files.getD (selectMaster g.prios).1 "" ∈ g.files := by
      rw [List.getD_eq_getElem _ _ hb]
      exact List.getElem_mem hb
    obtain ⟨m, hm⟩ : ∃ n,
        pathPriority (g.files.getD (selectMaster g.prios).1 "") = .num n := by
      have hn := hnum _ hmem
      cases hp : pathPriority (g.files.getD (selectMaster g.prios).1 "") with
      | num n => exact ⟨n, rfl⟩
      | obj s => rw [hp] at hn; simp [JsPriority.isNum] at hn
    have hgd2 : (nf :: (fs.map pathPriority).map JsPriority.toNum).getD
        (selectMaster g.prios).1 0
        = (pathPriority (g.files.getD (selectMaster g.prios).1 "")).toNum := by
      rw [← h2]
      exact getD_map_toNum g.files (selectMaster g.prios).1 hb
    have hval := hspec.2.1
    rw [← hfst, hgd2, hm] at hval
    rw [hsnd, hm]
    congr 1
    simpa [JsPriority.toNum] using hval.symm
  · show ∀ f' ∈ g.files,
      (selectMaster g.prios).2.toNum ≤ (pathPriority f').toNum
    intro f' hf'
    have hmem : (pathPriority f').toNum
        ∈ nf :: (fs.map pathPriority).map JsPriority.toNum := by
      rw [← h2]
      exact List.mem_map_of_mem _ hf'
    have hle := hspec.2.2.1 _ hmem
    rw [hsnd]
    simpa [JsPriority.toNum] using hle
  · show ∀ j, j < (selectMaster g.prios).1 →
      (selectMaster g.prios).2.toNum < (pathPriority (g.files.getD j "")).toNum
    intro j hj
    have hjb : j < g.files.length := lt_trans hj hb
    have hgd2 : (nf :: (fs.map pathPriority).map JsPriority.toNum).getD j 0
        = (pathPriority (g.files.getD j "")).toNum := by
      rw [← h2]
      exact getD_map_toNum g.files j hjb
    have hlt := hspec.2.2.2 j (by rw [← hfst]; exact hj)
    rw [hgd2] at hlt
    rw [hsnd]
    simpa [JsPriority.toNum] using hlt

/-! ## Partition lemmas -/

@[simp] theorem groupsFiles_nil : groupsFiles [] = [] := rfl

@[simp] theorem groupsFiles_cons (g : CompanionGroup) (gs : List CompanionGroup) :
    groupsFiles (g :: gs) = g.allFiles ++ groupsFiles gs := rfl

@[simp] theorem bucketsFiles_nil : bucketsFiles [] = [] := rfl

@[simp] theorem bucketsFiles_cons (kg : String × GroupAcc)
    (bs : List (String × GroupAcc)) :
    bucketsFiles (kg :: bs) = kg.2.files ++ bucketsFiles bs := rfl

@[simp] theorem toCompanionGroup_allFiles (k : String) (g : GroupAcc) :
    (toCompanionGroup k g).allFiles = g.files := rfl

theorem groupsFiles_map (bs : List (String × GroupAcc)) :
    groupsFiles (bs.map fun kg => toCompanionGroup kg.1 kg.2) = bucketsFiles bs := by
  induction bs with
  | nil => rfl
  | cons hd tl ih => simp [ih]

theorem lastDotIdx_none_iff (l : List Char) :
    lastDotIdx l = none ↔ hasDot l = false := by
  induction l with
  | nil => simp [lastDotIdx, hasDot]
  | cons c cs ih =>
    cases hd : hasDot cs with
    | false =>
      have hcs : lastDotIdx cs = none := ih.mpr hd
      by_cases hc : c = '.' <;> simp [lastDotIdx, hasDot, hcs, hc, hd]
    | true =>
      have hcs : lastDotIdx cs ≠ none := by
        intro hnone
        rw [ih.mp hnone] at hd
        cases hd
      cases hcase : lastDotIdx cs with
      | none => exact absurd hcase hcs
      | some i => by_cases hc : c = '.' <;> simp [lastDotIdx, hasDot, hcase, hc, hd]

theorem parsePathParts_none_iff (p : String) :
    parsePathParts p = none ↔ hasDot (fileNameChars p) = false := by
  rw [← lastDotIdx_none_iff]
  unfold parsePathParts
  cases hl : lastDotIdx (fileNameChars p) <;> simp [hl]

theorem bucketsFiles_addToGroups (bs : List (String × GroupAcc)) (k f e : String)
    (pr : JsPriority) :
    (bucketsFiles (addToGroups bs k f e pr)).Perm (bucketsFiles bs ++ [f]) := by
  induction bs with
  | nil => simp [addToGroups]
  | cons hd tl ih =>
    obtain ⟨k', g⟩ := hd
    by_cases hkk : k' = k
    · simp only [addToGroups, if_pos hkk, bucketsFiles_cons]
      rw [List.append_assoc, List.append_assoc]
      exact List.Perm.append_left _ List.perm_append_comm
    · simp only [addToGroups, if_neg hkk, bucketsFiles_cons]
      rw [List.append_assoc]
      exact List.Perm.append_left _ ih

theorem bucketsFiles_foldl (l : List String) :
    ∀ bs, (bucketsFiles (l.foldl groupStep bs)).Perm
      (bucketsFiles bs ++ l.filter fun p => hasDot (fileNameChars p)) := by
  induction l with
  | nil => intro bs; simp
  | cons p l ih =>
    intro bs
    simp only [List.foldl_cons, List.filter_cons]
    cases hp : parsePathParts p with
    | none =>
      have hdot : hasDot (fileNameChars p) = false := (parsePathParts_none_iff p).mp hp
      have hstep : groupStep bs p = bs := by simp [groupStep, hp]
      rw [hstep, hdot]
      simpa using ih bs
    | some t =>
      obtain ⟨k, e, pr⟩ := t
      have hdot : hasDot (fileNameChars p) = true := by
        cases hcase : hasDot (fileNameChars p) with
        | false => rw [(parsePathParts_none_iff p).mpr hcase] at hp; cases hp
        | true => rfl
      have hstep : groupStep bs p = addToGroups bs k p e pr := by simp [groupStep, hp]
      rw [hstep, hdot]
      have h1 := ih (addToGroups bs k p e pr)
      have h2 : (bucketsFiles (addToGroups bs k p e pr) ++
          l.filter fun q => hasDot (fileNameChars q)).Perm
          ((bucketsFiles bs ++ [p]) ++ l.filter fun q => hasDot (fileNameChars q)) :=
        (bucketsFiles_addToGroups bs k p e pr).append_right _
      refine (h1.trans h2).trans ?_
      rw [List.append_assoc]
      refine List.Perm.append_left _ ?_
      simp

theorem perm_groupsFiles (paths : List String) :
    (groupsFiles (groupCompanionFiles paths)).Perm
      (paths.filter fun p => hasDot (fileNameChars p)) := by
  have h := bucketsFiles_foldl paths []
  simpa [groupCompanionFiles, groupsFiles_map] using h

theorem buckets_pairwise_disjoint (paths : List String) :
    List.Pairwise (fun a b : String × GroupAcc => ∀ f, f ∈ a.2.files → f ∉ b.2.files)
      (paths.foldl groupStep []) := by
  have hinv := bucketsInv_of_paths paths
  have hkeys : List.Pairwise (fun a b : String × GroupAcc => a.1 ≠ b.1)
      (paths.foldl groupStep []) := List.pairwise_map.mp hinv.1
  refine hkeys.imp_of_mem ?_
  intro a b ha hb hne f hfa hfb
  have hka := (hinv.2 a ha).2.2 f hfa
  have hkb := (hinv.2 b hb).2.2 f hfb
  rw [hka] at hkb
  exact hne (Option.some_injective _ hkb)

/-! ## Claim C1 -/

/-- C1 counterexample: JS property access on the priority table consults
the prototype chain, so `priorities["constructor"]` is the inherited
(truthy) `Object` constructor and the `|| 99` default never fires; that
file's priority is not a number and every `<` comparison against it is
false.  At `["/d/a.constructor", "/d/a.jpg"]` the program's master is the
`.constructor` file even though the same group contains a jpg whose
priority 1 is the numerically smallest — refuting the claim as stated. -/
theorem master_selection_counterexample :
    (groupCompanionFiles ["/d/a.constructor", "/d/a.jpg"]).map
      CompanionGroup.masterFile = ["/d/a.constructor"] ∧
    ((groupCompanionFiles ["/d/a.constructor", "/d/a.jpg"]).getD 0
        dummyGroup).allFiles = ["/d/a.constructor", "/d/a.jpg"] ∧
    pathPriority "/d/a.jpg" = JsPriority.num 1 ∧
    (pathPriority "/d/a.constructor").isNum = false ∧
    (("/d/a.constructor" : String) = "/d/a.jpg" → False) := by decide

/-- C1 amended: in every group all of whose files carry numeric priorities
(equivalently, no extension lowercases to an inherited Object-prototype
member name, `constructor` or `__proto__`), the master sits at an index of
`allFiles` (discovery order) whose priority equals the group's
`masterPriority`, that numeric priority is a lower bound for every file of
the group, and every file at an earlier index has a strictly larger
priority — so the master attains the numerically smallest priority and
ties resolve to the first-encountered file.  In particular a jpg+cr2 group
has the jpg as master in either input order, and a cr2+nef group (equal
priority 10) has whichever file appeared first. -/
theorem master_selection_amended :
    (∀ (paths : List String) (g : CompanionGroup), g ∈ groupCompanionFiles paths →
      (∀ f ∈ g.allFiles, (pathPriority f).isNum = true) →
      ∃ i, i < g.allFiles.length ∧ g.masterFile = g.allFiles.getD i "" ∧
        g.masterPriority = pathPriority g.masterFile ∧
        (∀ f ∈ g.allFiles, g.masterPriority.toNum ≤ (pathPriority f).toNum) ∧
        ∀ j, j < i → g.masterPriority.toNum
          < (pathPriority (g.allFiles.getD j "")).toNum) ∧
    (groupCompanionFiles ["/d/IMG_1.jpg", "/d/IMG_1.cr2"]).map
      CompanionGroup.masterFile = ["/d/IMG_1.jpg"] ∧
    (groupCompanionFiles ["/d/IMG_1.cr2", "/d/IMG_1.jpg"]).map
      CompanionGroup.masterFile = ["/d/IMG_1.jpg"] ∧
    (groupCompanionFiles ["/d/IMG_1.cr2", "/d/IMG_1.nef"]).map
      CompanionGroup.masterFile = ["/d/IMG_1.cr2"] ∧
    (groupCompanionFiles ["/d/IMG_1.nef", "/d/IMG_1.cr2"]).map
      CompanionGroup.masterFile = ["/d/IMG_1.nef"] := by
  refine ⟨?_, by decide, by decide, by decide, by decide⟩
  intro paths g hg hnum
  obtain ⟨kg, _, rfl, hinv⟩ := groupCompanionFiles_mem hg
  exact toCompanionGroup_master hinv hnum

/-- Witness for the amended C1 at the concrete input `/d/IMG_1.jpg`,
`/d/IMG_1.cr2`. -/
theorem master_selection_amended_witness :
    ∃ i, i < groupA.allFiles.length ∧
      groupA.masterFile = groupA.allFiles.getD i "" ∧
      groupA.masterPriority = pathPriority groupA.masterFile ∧
      (∀ f ∈ groupA.allFiles,
        groupA.masterPriority.toNum ≤ (pathPriority f).toNum) ∧
      ∀ j, j < i → groupA.masterPriority.toNum
        < (pathPriority (groupA.allFiles.getD j "")).toNum :=
  master_selection_amended.1 ["/d/IMG_1.jpg", "/d/IMG_1.cr2"] groupA (by decide)
    (by decide)

/-! ## Claim C2 -/

/-- C2: `groupCompanionFiles` partitions its input: the concatenation of
`allFiles` over the returned groups is a permutation of the input list
minus exactly those paths whose filename contains no `'.'`, and no input
path lands in two distinct groups. -/
theorem partition_correct (paths : List String) :
    (groupsFiles (groupCompanionFiles paths)).Perm
      (paths.filter fun p => hasDot (fileNameChars p)) ∧
    ∀ i j, i < j → j < (groupCompanionFiles paths).length → ∀ f,
      f ∈ ((groupCompanionFiles paths).getD i dummyGroup).allFiles →
      f ∉ ((groupCompanionFiles paths).getD j dummyGroup).allFiles := by
  refine ⟨perm_groupsFiles paths, ?_⟩
  intro i j hij hj f hfi hfj
  have hpw := buckets_pairwise_disjoint paths
  have hlen : (groupCompanionFiles paths).length
      = (paths.foldl groupStep []).length := by
    simp [groupCompanionFiles]
  have hj' : j < (paths.foldl groupStep []).length := by rw [← hlen]; exact hj
  have hi' : i < (paths.foldl groupStep []).length := lt_trans hij hj'
  have hR := (List.pairwise_iff_getElem.mp hpw) i j hi' hj' hij
  have hgi : ((groupCompanionFiles paths).getD i dummyGroup).allFiles
      = ((paths.foldl groupStep [])[i]).2.files := by
    rw [List.getD_eq_getElem _ _ (by rw [hlen]; exact hi')]
    simp [groupCompanionFiles]
  have hgj : ((groupCompanionFiles paths).getD j dummyGroup).allFiles
      = ((paths.foldl groupStep [])[j]).2.files := by
    rw [List.getD_eq_getElem _ _ (by rw [hlen]; exact hj')]
    simp [groupCompanionFiles]
  rw [hgi] at hfi
  rw [hgj] at hfj
  exact hR f hfi hfj

/-- Witness for C2 at a concrete input with two groups, a shared stem
across directories, and an extension-less file. -/
theorem partition_correct_witness :
    ((groupsFiles (groupCompanionFiles
        ["/a/IMG_1.jpg", "/b/IMG_1.cr2", "/a/noext"])).Perm
      (["/a/IMG_1.jpg", "/b/IMG_1.cr2", "/a/noext"].filter
        fun p => hasDot (fileNameChars p))) ∧
    ¬ ("/a/IMG_1.jpg" ∈
        ((groupCompanionFiles ["/a/IMG_1.jpg", "/b/IMG_1.cr2", "/a/noext"]).getD 1
          dummyGroup).allFiles) :=
  ⟨(partition_correct ["/a/IMG_1.jpg", "/b/IMG_1.cr2", "/a/noext"]).1,
    (partition_correct ["/a/IMG_1.jpg", "/b/IMG_1.cr2", "/a/noext"]).2 0 1
      (by decide) (by decide) "/a/IMG_1.jpg" (by decide)⟩

/-! ## Orchestrator lemmas -/

theorem processGroups_fst (cfg : ImportConfig) (C : Collaborators) (cid : Nat) :
    ∀ gs : List CompanionGroup,
      (processGroups cfg C cid gs).1 = gs.map fun g => (processGroup cfg C cid g).1 := by
  intro gs
  induction gs with
  | nil => rfl
  | cons g rest ih => simp [processGroups, ih]

theorem classCount_success_record (g : CompanionGroup) (res : PhotoCreateResponse) :
    classCount (successResultOf g res) = 1 := by
  rcases res with ⟨h, d⟩
  rcases d with _ | d
  · rfl
  · cases d <;> rfl

theorem processGroup_classCount (cfg : ImportConfig) (C : Collaborators) (cid : Nat)
    (g : CompanionGroup) : classCount (processGroup cfg C cid g).1 = 1 := by
  unfold processGroup
  split
  · rfl
  · split
    · rfl
    · split
      · rfl
      · split
        · rfl
        · exact classCount_success_record _ _

theorem processGroup_skip (cfg : ImportConfig) {C : Collaborators} (cid : Nat)
    {g : CompanionGroup} {e : String}
    (h : C.process_image_file g.masterFile = .error e) :
    (processGroup cfg C cid g).1 = skipResultOf g e ∧
      (processGroup cfg C cid g).2 = [.extractCall g.masterFile] := by
  simp [processGroup, h]

theorem processGroup_extract_mem (cfg : ImportConfig) (C : Collaborators) (cid : Nat)
    (g : CompanionGroup) :
    CallEvent.extractCall g.masterFile ∈ (processGroup cfg C cid g).2 := by
  unfold processGroup
  split
  · simp
  · split
    · simp
    · split
      · simp
      · split <;> simp

theorem processGroups_trace_mem (cfg : ImportConfig) (C : Collaborators) (cid : Nat) :
    ∀ (gs : List CompanionGroup) (g : CompanionGroup), g ∈ gs →
      ∀ ev, ev ∈ (processGroup cfg C cid g).2 → ev ∈ (processGroups cfg C cid gs).2 := by
  intro gs
  induction gs with
  | nil => intro g hg; cases hg
  | cons a l ih =>
    intro g hg ev hev
    rcases List.mem_cons.mp hg with rfl | hg
    · simp only [processGroups, List.mem_append]
      exact Or.inl hev
    · simp only [processGroups, List.mem_append]
      exact Or.inr (ih g hg ev hev)

theorem processGroups_getD (cfg : ImportConfig) (C : Collaborators) (cid : Nat)
    {gs : List CompanionGroup} {i : Nat} (hi : i < gs.length) :
    (processGroups cfg C cid gs).1.getD i dummyResult
      = (processGroup cfg C cid (gs.getD i dummyGroup)).1 := by
  rw [processGroups_fst]
  rw [List.getD_eq_getElem _ _ (by simpa using hi), List.getD_eq_getElem _ _ hi]
  simp

theorem classify_success_record (g : CompanionGroup) (res : PhotoCreateResponse) :
    classify (successResultOf g res)
      = if boolTruthy res.is_duplicate then Classification.duplicate
        else Classification.success := by
  rcases res with ⟨h, d⟩
  rcases d with _ | d
  · rfl
  · cases d <;> rfl

theorem processGroup_success {cfg : ImportConfig} {C : Collaborators} {cid : Nat}
    {g : CompanionGroup} {schema0 : PhotoCreateSchema} {fp : String}
    {entries : List ImageFileSchema} {res : PhotoCreateResponse}
    (hext : C.process_image_file g.masterFile = .ok schema0)
    (hplace : (placeMaster cfg C g.masterFile).1 = .ok fp)
    (hcomp : (processCompanions cfg C (g.allFiles.map baseNameOf)
      g.companionFiles).1 = .ok entries)
    (hup : C.upload_photo_create_schema
      (assembledSchema cfg schema0 (masterLsi cfg g fp) entries cid) = .ok res) :
    (processGroup cfg C cid g).1 = successResultOf g res ∧
    (processGroup cfg C cid g).2 = .extractCall g.masterFile ::
      ((placeMaster cfg C g.masterFile).2 ++
       (processCompanions cfg C (g.allFiles.map baseNameOf) g.companionFiles).2 ++
       [.uploadCall (assembledSchema cfg schema0 (masterLsi cfg g fp) entries cid)]) := by
  simp [processGroup, hext, hplace, hcomp, hup]

theorem processGroup_place_error (cid : Nat) {cfg : ImportConfig} {C : Collaborators}
    {g : CompanionGroup} {schema0 : PhotoCreateSchema} {e : String}
    (hext : C.process_image_file g.masterFile = .ok schema0)
    (hplace : (placeMaster cfg C g.masterFile).1 = .error e) :
    (processGroup cfg C cid g).1 = failResultOf g e ∧
    (processGroup cfg C cid g).2
      = .extractCall g.masterFile :: (placeMaster cfg C g.masterFile).2 := by
  simp [processGroup, hext, hplace]

theorem processGroup_comp_error (cid : Nat) {cfg : ImportConfig} {C : Collaborators}
    {g : CompanionGroup} {schema0 : PhotoCreateSchema} {fp : String} {e : String}
    (hext : C.process_image_file g.masterFile = .ok schema0)
    (hplace : (placeMaster cfg C g.masterFile).1 = .ok fp)
    (hcomp : (processCompanions cfg C (g.allFiles.map baseNameOf)
      g.companionFiles).1 = .error e) :
    (processGroup cfg C cid g).1 = failResultOf g e ∧
    (processGroup cfg C cid g).2 = .extractCall g.masterFile ::
      ((placeMaster cfg C g.masterFile).2 ++
       (processCompanions cfg C (g.allFiles.map baseNameOf) g.companionFiles).2) := by
  simp [processGroup, hext, hplace, hcomp]

theorem placeMaster_copy_error {cfg : ImportConfig} {C : Collaborators}
    {m ce : String} (hmode : cfg.isCopyMode = true)
    (hdest : strTruthy cfg.destinationPath = true)
    (hc : C.copy_file_to_storage m (cfg.destinationPath.getD "") = .error ce) :
    (placeMaster cfg C m).1 = .error ("Error: Kunne ikke kopiere fil: " ++ ce) ∧
    (placeMaster cfg C m).2 = [.copyCall m (cfg.destinationPath.getD "")] := by
  simp [placeMaster, hmode, hdest, hc]

theorem placeMaster_copy_ok {cfg : ImportConfig} {C : Collaborators} {m fp : String}
    (hmode : cfg.isCopyMode = true) (hdest : strTruthy cfg.destinationPath = true)
    (hc : C.copy_file_to_storage m (cfg.destinationPath.getD "") = .ok fp) :
    (placeMaster cfg C m).1 = .ok fp := by
  simp [placeMaster, hmode, hdest, hc]

theorem placeMaster_no_upload (cfg : ImportConfig) (C : Collaborators) (m : String)
    (s : PhotoCreateSchema) :
    CallEvent.uploadCall s ∉ (placeMaster cfg C m).2 := by
  unfold placeMaster
  split
  · split <;> simp
  · simp

theorem companionPlaced_no_upload (cfg : ImportConfig) (C : Collaborators)
    (allFn : List String) (c : String) (s : PhotoCreateSchema) :
    CallEvent.uploadCall s ∉ (companionPlaced cfg C allFn c).2.2 := by
  unfold companionPlaced
  split
  · split <;> simp
  · simp

theorem processCompanion_no_upload (cfg : ImportConfig) (C : Collaborators)
    (allFn : List String) (c : String) (s : PhotoCreateSchema) :
    CallEvent.uploadCall s ∉ (processCompanion cfg C allFn c).2 := by
  unfold processCompanion
  have h := companionPlaced_no_upload cfg C allFn c s
  split <;> simp [h]

theorem processCompanions_no_upload (cfg : ImportConfig) (C : Collaborators)
    (allFn : List String) (s : PhotoCreateSchema) :
    ∀ l, CallEvent.uploadCall s ∉ (processCompanions cfg C allFn l).2 := by
  intro l
  induction l with
  | nil => simp [processCompanions]
  | cons c rest ih =>
    have h1 := processCompanion_no_upload cfg C allFn c s
    unfold processCompanions
    split
    · exact h1
    · split <;> simp [h1, ih]

theorem processCompanion_ok_of_size (cfg : ImportConfig) (C : Collaborators)
    (allFn : List String) (c : String)
    (hsz : ∀ p, ∃ n, C.get_file_size p = .ok n) :
    ∃ entry, (processCompanion cfg C allFn c).1 = .ok entry := by
  obtain ⟨n, hn⟩ := hsz (companionPlaced cfg C allFn c).1
  unfold processCompanion
  rw [hn]
  exact ⟨_, rfl⟩

theorem processCompanions_ok_of_sizes (cfg : ImportConfig) (C : Collaborators)
    (allFn : List String)
    (hsz : ∀ p, ∃ n, C.get_file_size p = .ok n) :
    ∀ l, ∃ entries, (processCompanions cfg C allFn l).1 = .ok entries ∧
      ∀ c ∈ l, ∃ entry, entry ∈ entries ∧
        (processCompanion cfg C allFn c).1 = .ok entry := by
  intro l
  induction l with
  | nil => exact ⟨[], rfl, fun c hc => absurd hc (List.not_mem_nil c)⟩
  | cons c rest ih =>
    obtain ⟨entries, he, hmem⟩ := ih
    obtain ⟨entry, hentry⟩ := processCompanion_ok_of_size cfg C allFn c hsz
    refine ⟨entry :: entries, ?_, ?_⟩
    · simp [processCompanions, hentry, he]
    · intro c' hc'
      rcases List.mem_cons.mp hc' with rfl | hc'
      · exact ⟨entry, by simp, hentry⟩
      · obtain ⟨entry', hmem', hok⟩ := hmem c' hc'
        exact ⟨entry', by simp [hmem'], hok⟩

theorem processCompanions_shape (cfg : ImportConfig) (C : Collaborators)
    (allFn : List String) :
    ∀ (l : List String) (entries : List ImageFileSchema),
      (processCompanions cfg C allFn l).1 = .ok entries →
      entries.length = l.length ∧
      ∀ k, k < l.length →
        (processCompanion cfg C allFn (l.getD k "")).1
          = .ok (entries.getD k dummyEntry) := by
  intro l
  induction l with
  | nil =>
    intro entries h
    simp only [processCompanions, Except.ok.injEq] at h
    subst h
    exact ⟨rfl, fun k hk => absurd hk (by simp)⟩
  | cons c rest ih =>
    intro entries h
    unfold processCompanions at h
    cases hc : (processCompanion cfg C allFn c).1 with
    | error e => rw [hc] at h; simp at h
    | ok entry =>
      rw [hc] at h
      cases hr : (processCompanions cfg C allFn rest).1 with
      | error e => rw [hr] at h; simp at h
      | ok entries' =>
        rw [hr] at h
        simp only [Except.ok.injEq] at h
        subst h
        obtain ⟨hlen, hidx⟩ := ih entries' hr
        refine ⟨by simp [hlen], ?_⟩
        intro k hk
        cases k with
        | zero => simpa using hc
        | succ k' =>
          simp only [List.getD_cons_succ]
          exact hidx k' (by simpa using hk)

theorem processCompanion_ok_shape (cfg : ImportConfig) (C : Collaborators)
    (allFn : List String) (c : String) (entry : ImageFileSchema)
    (h : (processCompanion cfg C allFn c).1 = .ok entry) :
    entry.filename = baseNameOf c ∧
    entry.local_storage_info = some (companionPlaced cfg C allFn c).2.1 ∧
    entry.imported_info = some (batchImportedInfo cfg) := by
  unfold processCompanion at h
  cases hsz : C.get_file_size (companionPlaced cfg C allFn c).1 with
  | error e => rw [hsz] at h; simp at h
  | ok n =>
    rw [hsz] at h
    simp only [Except.ok.injEq] at h
    subst h
    exact ⟨rfl, rfl, rfl⟩

theorem companionPlaced_copy_error (cfg : ImportConfig) (C : Collaborators)
    (allFn : List String) (c ce : String) (hmode : cfg.isCopyMode = true)
    (hdest : strTruthy cfg.destinationPath = true)
    (hcc : C.copy_file_to_storage c (cfg.destinationPath.getD "") = .error ce) :
    companionPlaced cfg C allFn c
      = (c, { companionBaseLsi cfg allFn c with storage_path := some c },
         [.copyCall c (cfg.destinationPath.getD "")]) := by
  simp [companionPlaced, hmode, hdest, hcc]

theorem processCompanion_size_error (cfg : ImportConfig) (C : Collaborators)
    (allFn : List String) (c se : String)
    (hse : C.get_file_size (companionPlaced cfg C allFn c).1 = .error se) :
    (processCompanion cfg C allFn c).1 = .error se := by
  simp [processCompanion, hse]

theorem processCompanions_append_error (cfg : ImportConfig) (C : Collaborators)
    (allFn : List String) (c : String) (post : List String) (se : String)
    (hc : (processCompanion cfg C allFn c).1 = .error se) :
    ∀ (pre : List String) (entriesPre : List ImageFileSchema),
      (processCompanions cfg C allFn pre).1 = .ok entriesPre →
      (processCompanions cfg C allFn (pre ++ c :: post)).1 = .error se := by
  intro pre
  induction pre with
  | nil =>
    intro entriesPre _
    simp [processCompanions, hc]
  | cons a pre' ih =>
    intro entriesPre hpre
    unfold processCompanions at hpre
    cases ha : (processCompanion cfg C allFn a).1 with
    | error e => rw [ha] at hpre; simp at hpre
    | ok ea =>
      rw [ha] at hpre
      cases hr : (processCompanions cfg C allFn pre').1 with
      | error e => rw [hr] at hpre; simp at hpre
      | ok entries' =>
        have hrec := ih entries' hr
        show (processCompanions cfg C allFn (a :: (pre' ++ c :: post))).1 = .error se
        simp [processCompanions, ha, hrec]

/-! ## Claim C3 -/

/-- C3: the orchestration loop yields exactly one outcome record per input
group, in input order (the i-th outcome is the processing of the i-th
group), and each record satisfies exactly one of the four summary filters
(new success, duplicate, skipped, failed). -/
theorem outcomes_one_per_group (cfg : ImportConfig) (C : Collaborators) (cid : Nat)
    (groups : List CompanionGroup) :
    (processGroups cfg C cid groups).1.length = groups.length ∧
    ∀ i, i < groups.length →
      (processGroups cfg C cid groups).1.getD i dummyResult
        = (processGroup cfg C cid (groups.getD i dummyGroup)).1 ∧
      classCount ((processGroups cfg C cid groups).1.getD i dummyResult) = 1 := by
  constructor
  · rw [processGroups_fst]; simp
  · intro i hi
    have h1 := processGroups_getD cfg C cid hi
    refine ⟨h1, ?_⟩
    rw [h1]
    exact processGroup_classCount cfg C cid _

/-- Witness for C3 on a concrete three-group batch. -/
theorem outcomes_one_per_group_witness :
    (processGroups cfgReg sampleC 1 groups3).1.length = groups3.length ∧
    ((processGroups cfgReg sampleC 1 groups3).1.getD 0 dummyResult
        = (processGroup cfgReg sampleC 1 (groups3.getD 0 dummyGroup)).1 ∧
      classCount ((processGroups cfgReg sampleC 1 groups3).1.getD 0 dummyResult)
        = 1) :=
  ⟨(outcomes_one_per_group cfgReg sampleC 1 groups3).1,
   (outcomes_one_per_group cfgReg sampleC 1 groups3).2 0 (by decide)⟩

/-! ## Claim C4 -/

/-- C4: when the extractor fails on the i-th group's master file, that
group's outcome is classified SKIPPED (not FAILED) with the extractor's
error in the skip reason, while the batch still produces one outcome per
group and the extractor is still invoked for every group (so subsequent
groups are attempted). -/
theorem extractor_failure_skipped (cfg : ImportConfig) (C : Collaborators)
    (cid : Nat) (groups : List CompanionGroup) (i : Nat) (e : String)
    (hi : i < groups.length)
    (hfail : C.process_image_file ((groups.getD i dummyGroup).masterFile)
      = .error e) :
    (processGroups cfg C cid groups).1.length = groups.length ∧
    classify ((processGroups cfg C cid groups).1.getD i dummyResult)
      = Classification.skipped ∧
    isFailedRes ((processGroups cfg C cid groups).1.getD i dummyResult) = false ∧
    ((processGroups cfg C cid groups).1.getD i dummyResult).skipReason
      = some ("Cannot process file: " ++ e) ∧
    ∀ j, j < groups.length →
      CallEvent.extractCall ((groups.getD j dummyGroup).masterFile)
        ∈ (processGroups cfg C cid groups).2 := by
  have hgd := processGroups_getD cfg C cid hi
  have hskip := (processGroup_skip cfg cid hfail).1
  refine ⟨?_, ?_, ?_, ?_, ?_⟩
  · rw [processGroups_fst]; simp
  · rw [hgd, hskip]; rfl
  · rw [hgd, hskip]; rfl
  · rw [hgd, hskip]; rfl
  · intro j hj
    have hmem : groups.getD j dummyGroup ∈ groups := by
      rw [List.getD_eq_getElem _ _ hj]
      exact List.getElem_mem hj
    exact processGroups_trace_mem cfg C cid groups _ hmem _
      (processGroup_extract_mem cfg C cid _)

/-- Witness for C4: a synthetic extractor failing only on group 2 of 3
produces classifications SUCCESS, SKIPPED, SUCCESS. -/
theorem extractor_failure_skipped_witness :
    ((processGroups cfgReg skip2C 1 groups3).1.length = groups3.length ∧
      classify ((processGroups cfgReg skip2C 1 groups3).1.getD 1 dummyResult)
        = Classification.skipped ∧
      isFailedRes ((processGroups cfgReg skip2C 1 groups3).1.getD 1 dummyResult)
        = false ∧
      ((processGroups cfgReg skip2C 1 groups3).1.getD 1 dummyResult).skipReason
        = some ("Cannot process file: " ++ "boom") ∧
      ∀ j, j < groups3.length →
        CallEvent.extractCall ((groups3.getD j dummyGroup).masterFile)
          ∈ (processGroups cfgReg skip2C 1 groups3).2) ∧
    (processGroups cfgReg skip2C 1 groups3).1.map classify
      = [Classification.success, Classification.skipped, Classification.success] :=
  ⟨extractor_failure_skipped cfgReg skip2C 1 groups3 1 "boom" (by decide) (by decide),
   by decide⟩

/-! ## Claim C6 -/

/-- C6: with a missing auth token, a missing (or unselected) input
channel, or copy mode without a destination directory, `startImport`
refuses the whole batch synchronously: no outcome record is produced and
no external collaborator is called (empty trace). -/
theorem precondition_refusal (cfg : ImportConfig) (C : Collaborators)
    (files : List String)
    (h : strTruthy cfg.authToken = false ∨
      natTruthy cfg.selectedInputChannelId = false ∨
      (cfg.isCopyMode = true ∧ strTruthy cfg.destinationPath = false)) :
    startImport cfg C files = (none, []) := by
  unfold startImport
  rcases h with h | h | ⟨h1, h2⟩
  · by_cases hf : files.length = 0 <;> simp [hf, h]
  · by_cases hf : files.length = 0 <;> by_cases ha : strTruthy cfg.authToken <;>
      simp [hf, ha, h]
  · by_cases hf : files.length = 0 <;> by_cases ha : strTruthy cfg.authToken <;>
      by_cases hc : natTruthy cfg.selectedInputChannelId <;>
      simp [hf, ha, hc, h1, h2]

/-- Witness for C6: no authenticated session, nonempty selection. -/
theorem precondition_refusal_witness :
    startImport { cfgReg with authToken := none } sampleC ["/d/IMG_1.jpg"]
      = (none, []) :=
  precondition_refusal { cfgReg with authToken := none } sampleC ["/d/IMG_1.jpg"]
    (Or.inl (by decide))

/-! ## Claim C7 -/

/-- C7: for a group whose upload succeeds, the outcome is DUPLICATE
exactly when the uploader's response has its duplicate flag set (and then
it is not counted as a new success), and SUCCESS otherwise. -/
theorem duplicate_classification (cfg : ImportConfig) (C : Collaborators)
    (cid : Nat) (group : CompanionGroup) (schema0 : PhotoCreateSchema)
    (fp : String) (entries : List ImageFileSchema) (res : PhotoCreateResponse)
    (hext : C.process_image_file group.masterFile = .ok schema0)
    (hplace : (placeMaster cfg C group.masterFile).1 = .ok fp)
    (hcomp : (processCompanions cfg C (group.allFiles.map baseNameOf)
      group.companionFiles).1 = .ok entries)
    (hup : C.upload_photo_create_schema
      (assembledSchema cfg schema0 (masterLsi cfg group fp) entries cid)
      = .ok res) :
    classify (processGroup cfg C cid group).1
      = (if boolTruthy res.is_duplicate then Classification.duplicate
         else Classification.success) ∧
    (boolTruthy res.is_duplicate = true →
      classify (processGroup cfg C cid group).1 ≠ Classification.success) ∧
    isDuplicateRes (processGroup cfg C cid group).1 = boolTruthy res.is_duplicate ∧
    isNewSuccess (processGroup cfg C cid group).1
      = !(boolTruthy res.is_duplicate) := by
  have hs := (processGroup_success hext hplace hcomp hup).1
  rw [hs]
  refine ⟨classify_success_record group res, ?_, ?_, ?_⟩
  · intro hb
    rw [classify_success_record group res, if_pos hb]
    intro hcontra
    exact Classification.noConfusion hcontra
  · simp [isDuplicateRes, successResultOf]
  · simp [isNewSuccess, successResultOf, boolTruthy]

/-- Witness for C7: an uploader reporting a pre-existing identity yields
DUPLICATE, never SUCCESS. -/
theorem duplicate_classification_witness :
    classify (processGroup cfgReg dupC 1 groupB).1
      = (if boolTruthy resDup.is_duplicate then Classification.duplicate
         else Classification.success) ∧
    (boolTruthy resDup.is_duplicate = true →
      classify (processGroup cfgReg dupC 1 groupB).1 ≠ Classification.success) ∧
    isDuplicateRes (processGroup cfgReg dupC 1 groupB).1
      = boolTruthy resDup.is_duplicate ∧
    isNewSuccess (processGroup cfgReg dupC 1 groupB).1
      = !(boolTruthy resDup.is_duplicate) :=
  duplicate_classification cfgReg dupC 1 groupB schemaB "/d/IMG_2.nef" [] resDup
    (by decide) (by decide) (by decide) (by decide)

theorem processGroup_upload_mem (cid : Nat) {cfg : ImportConfig} {C : Collaborators}
    {g : CompanionGroup} {schema0 : PhotoCreateSchema} {fp : String}
    {entries : List ImageFileSchema}
    (hext : C.process_image_file g.masterFile = .ok schema0)
    (hplace : (placeMaster cfg C g.masterFile).1 = .ok fp)
    (hcomp : (processCompanions cfg C (g.allFiles.map baseNameOf)
      g.companionFiles).1 = .ok entries) :
    CallEvent.uploadCall (assembledSchema cfg schema0 (masterLsi cfg g fp) entries cid)
      ∈ (processGroup cfg C cid g).2 := by
  simp only [processGroup, hext, hplace, hcomp]
  split <;> simp

/-! ## Claim C5 -/

/-- C5: in copy mode, a copy failure on the master makes the group FAILED
with the copy error and no upload call happens for it; a copy failure on a
companion is tolerated — the companion's entry records the original path
as its storage path and the group still reaches the upload call. -/
theorem copy_failure_handling (cfg : ImportConfig) (C : Collaborators) (cid : Nat)
    (group : CompanionGroup)
    (hmode : cfg.isCopyMode = true) (hdest : strTruthy cfg.destinationPath = true) :
    (∀ (schema0 : PhotoCreateSchema) (ce : String),
      C.process_image_file group.masterFile = .ok schema0 →
      C.copy_file_to_storage group.masterFile (cfg.destinationPath.getD "")
        = .error ce →
      classify (processGroup cfg C cid group).1 = Classification.failed ∧
      (processGroup cfg C cid group).1.error
        = some ("Error: Kunne ikke kopiere fil: " ++ ce) ∧
      ∀ s, CallEvent.uploadCall s ∉ (processGroup cfg C cid group).2) ∧
    (∀ (schema0 : PhotoCreateSchema) (mp c ce : String),
      C.process_image_file group.masterFile = .ok schema0 →
      C.copy_file_to_storage group.masterFile (cfg.destinationPath.getD "")
        = .ok mp →
      c ∈ group.companionFiles →
      C.copy_file_to_storage c (cfg.destinationPath.getD "") = .error ce →
      (∀ p, ∃ n, C.get_file_size p = .ok n) →
      ∃ s, CallEvent.uploadCall s ∈ (processGroup cfg C cid group).2 ∧
        ∃ entry, entry ∈ s.image_file_list.getD [] ∧
          entry.filename = baseNameOf c ∧
          ∃ lsi, entry.local_storage_info = some lsi ∧
            lsi.storage_path = some c ∧ lsi.source_path = c) := by
  constructor
  · intro schema0 ce hext hcc
    have hpm := placeMaster_copy_error hmode hdest hcc
    have hfail := processGroup_place_error cid hext hpm.1
    refine ⟨by rw [hfail.1]; rfl, by rw [hfail.1]; rfl, ?_⟩
    intro s hmem
    rw [hfail.2] at hmem
    rcases List.mem_cons.mp hmem with h | h
    · cases h
    · exact placeMaster_no_upload cfg C group.masterFile s h
  · intro schema0 mp c ce hext hmc hcmem hcc hsz
    have hplace : (placeMaster cfg C group.masterFile).1 = .ok mp :=
      placeMaster_copy_ok hmode hdest hmc
    obtain ⟨entries, hcomp, hmem⟩ :=
      processCompanions_ok_of_sizes cfg C (group.allFiles.map baseNameOf) hsz
        group.companionFiles
    have hupmem := processGroup_upload_mem cid hext hplace hcomp
    obtain ⟨entry, hentrymem, hok⟩ := hmem c hcmem
    have hshape :=
      processCompanion_ok_shape cfg C (group.allFiles.map baseNameOf) c entry hok
    have hcp := companionPlaced_copy_error cfg C (group.allFiles.map baseNameOf) c ce
      hmode hdest hcc
    refine ⟨assembledSchema cfg schema0 (masterLsi cfg group mp) entries cid,
      hupmem, entry, ?_, hshape.1, ?_⟩
    · show entry ∈ (assembledSchema cfg schema0 (masterLsi cfg group mp)
        entries cid).image_file_list.getD []
      simp only [assembledSchema, Option.getD_some]
      exact List.mem_append.mpr (Or.inr hentrymem)
    · refine ⟨(companionPlaced cfg C (group.allFiles.map baseNameOf) c).2.1,
        hshape.2.1, ?_, ?_⟩
      · rw [hcp]
      · rw [hcp]; rfl

/-- Witness for C5: master-copy failure gives FAILED with no upload;
companion-copy failure still uploads with the original path recorded. -/
theorem copy_failure_handling_witness :
    (classify (processGroup cfgCopy copyFailMasterC 1 groupA).1
        = Classification.failed ∧
      (processGroup cfgCopy copyFailMasterC 1 groupA).1.error
        = some ("Error: Kunne ikke kopiere fil: " ++ "disk full") ∧
      ∀ s, CallEvent.uploadCall s ∉ (processGroup cfgCopy copyFailMasterC 1 groupA).2) ∧
    (∃ s, CallEvent.uploadCall s ∈ (processGroup cfgCopy copyFailCompC 1 groupA).2 ∧
      ∃ entry, entry ∈ s.image_file_list.getD [] ∧
        entry.filename = baseNameOf "/d/IMG_1.cr2" ∧
        ∃ lsi, entry.local_storage_info = some lsi ∧
          lsi.storage_path = some "/d/IMG_1.cr2" ∧
          lsi.source_path = "/d/IMG_1.cr2") :=
  ⟨(copy_failure_handling cfgCopy copyFailMasterC 1 groupA (by decide)
      (by decide)).1 schemaA "disk full" (by decide) (by decide),
   (copy_failure_handling cfgCopy copyFailCompC 1 groupA (by decide)
      (by decide)).2 schemaA "/dst/IMG_1.jpg" "/d/IMG_1.cr2" "disk full"
      (by decide) (by decide) (by decide) (by decide) (fun p => ⟨5, rfl⟩)⟩

/-! ## Claim C10 -/

/-- C10: inside the companion loop, a `get_file_size` failure is not
tolerated: even after a tolerated companion-copy failure (which falls back
to the original path), a throwing size query escapes to the group boundary
and the whole group is classified FAILED (not SKIPPED) with that error,
and no upload call happens. -/
theorem companion_size_failure (cfg : ImportConfig) (C : Collaborators) (cid : Nat)
    (group : CompanionGroup) (pre post : List String) (c : String)
    (schema0 : PhotoCreateSchema) (fp : String)
    (entriesPre : List ImageFileSchema) (ce se : String)
    (hmode : cfg.isCopyMode = true) (hdest : strTruthy cfg.destinationPath = true)
    (hsplit : group.companionFiles = pre ++ c :: post)
    (hext : C.process_image_file group.masterFile = .ok schema0)
    (hplace : (placeMaster cfg C group.masterFile).1 = .ok fp)
    (hpre : (processCompanions cfg C (group.allFiles.map baseNameOf) pre).1
      = .ok entriesPre)
    (hcc : C.copy_file_to_storage c (cfg.destinationPath.getD "") = .error ce)
    (hse : C.get_file_size c = .error se) :
    classify (processGroup cfg C cid group).1 = Classification.failed ∧
    (processGroup cfg C cid group).1.error = some se ∧
    isSkippedRes (processGroup cfg C cid group).1 = false ∧
    ∀ s, CallEvent.uploadCall s ∉ (processGroup cfg C cid group).2 := by
  have hcp := companionPlaced_copy_error cfg C (group.allFiles.map baseNameOf) c ce
    hmode hdest hcc
  have hc1 : (processCompanion cfg C (group.allFiles.map baseNameOf) c).1
      = .error se := by
    apply processCompanion_size_error
    rw [hcp]
    exact hse
  have hcomp : (processCompanions cfg C (group.allFiles.map baseNameOf)
      group.companionFiles).1 = .error se := by
    rw [hsplit]
    exact processCompanions_append_error cfg C _ c post se hc1 pre entriesPre hpre
  have hfail := processGroup_comp_error cid hext hplace hcomp
  refine ⟨by rw [hfail.1]; rfl, by rw [hfail.1]; rfl, by rw [hfail.1]; rfl, ?_⟩
  intro s hmem
  rw [hfail.2] at hmem
  rcases List.mem_cons.mp hmem with h | h
  · cases h
  · rcases List.mem_append.mp h with h | h
    · exact placeMaster_no_upload cfg C group.masterFile s h
    · exact processCompanions_no_upload cfg C _ s _ h

/-- Witness for C10 at the jpg+cr2 group: the companion copy fails
(tolerated), then the size query at the original path throws, and the
group is FAILED. -/
theorem companion_size_failure_witness :
    classify (processGroup cfgCopy sizeFailC 1 groupA).1 = Classification.failed ∧
    (processGroup cfgCopy sizeFailC 1 groupA).1.error = some "stat failed" ∧
    isSkippedRes (processGroup cfgCopy sizeFailC 1 groupA).1 = false ∧
    ∀ s, CallEvent.uploadCall s ∉ (processGroup cfgCopy sizeFailC 1 groupA).2 :=
  companion_size_failure cfgCopy sizeFailC 1 groupA [] [] "/d/IMG_1.cr2" schemaA
    "/dst/IMG_1.jpg" [] "disk full" "stat failed" (by decide) (by decide)
    (by decide) (by decide) (by decide) (by decide) (by decide) (by decide)

/-! ## Claim C8 -/

theorem selectMaster_lt_of_inv {k : String} {g : GroupAcc} (hinv : GroupInv k g) :
    (selectMaster g.prios).1 < g.files.length := by
  obtain ⟨hne, hpar, _⟩ := hinv
  obtain ⟨f, fs, hfs⟩ : ∃ f fs, g.files = f :: fs := by
    cases hcase : g.files with
    | nil => exact absurd hcase hne
    | cons f fs => exact ⟨f, fs, rfl⟩
  have hps : g.prios = pathPriority f :: fs.map pathPriority := by
    rw [hpar, hfs]; simp
  rw [hps, hfs]
  show (masterScan (fs.map pathPriority) 1 0 (pathPriority f)).1 < fs.length + 1
  rcases masterScan_idx_bound (fs.map pathPriority) 1 0 (pathPriority f)
    with h | ⟨j, hj, hji⟩
  · rw [h]; omega
  · rw [List.length_map] at hj
    rw [hji]
    omega

theorem group_size {paths : List String} {g : CompanionGroup}
    (hg : g ∈ groupCompanionFiles paths) :
    1 + g.companionFiles.length = g.allFiles.length := by
  obtain ⟨kg, _, rfl, hinv⟩ := groupCompanionFiles_mem hg
  have hlt := selectMaster_lt_of_inv hinv
  show 1 + (kg.2.files.eraseIdx (selectMaster kg.2.prios).1).length
    = kg.2.files.length
  rw [Nat.add_comm]
  exact List.length_eraseIdx_add_one hlt

theorem groupsFiles_length (gs : List CompanionGroup) :
    (groupsFiles gs).length = (gs.map fun g => g.allFiles.length).sum := by
  induction gs with
  | nil => rfl
  | cons g rest ih => simp [ih]

/-- C8 counterexample: on the input `/d/a.jpg`, `/d/noext` the summary
reports 2 files but only 1 file is grouped (the extension-less path joins
no group), so the claimed equality fails. -/
theorem summary_total_counterexample :
    totalFilesReported ["/d/a.jpg", "/d/noext"]
      ≠ groupedFilesTotal ["/d/a.jpg", "/d/noext"] := by decide

/-- C8 amended: the summary's total file count is the raw input length,
which equals the sum over groups of 1 + companion count exactly when
every input filename contains a `'.'`; extension-less inputs are counted
in the reported total but belong to no group. -/
theorem summary_total_amended (paths : List String)
    (h : ∀ p ∈ paths, hasDot (fileNameChars p) = true) :
    totalFilesReported paths = groupedFilesTotal paths := by
  have hperm := perm_groupsFiles paths
  have hfilter : paths.filter (fun p => hasDot (fileNameChars p)) = paths := by
    rw [List.filter_eq_self]
    intro a ha
    exact h a ha
  have hlen : (groupsFiles (groupCompanionFiles paths)).length = paths.length := by
    rw [hperm.length_eq, hfilter]
  have hsum1 : groupedFilesTotal paths
      = ((groupCompanionFiles paths).map fun g => g.allFiles.length).sum := by
    unfold groupedFilesTotal
    congr 1
    apply List.map_congr_left
    intro g hg
    exact group_size hg
  show paths.length = groupedFilesTotal paths
  rw [hsum1, ← groupsFiles_length, hlen]

/-- Witness for the amended C8 on a three-path input where every filename
has an extension. -/
theorem summary_total_amended_witness :
    totalFilesReported ["/d/IMG_1.jpg", "/d/IMG_1.cr2", "/d/IMG_2.nef"]
      = groupedFilesTotal ["/d/IMG_1.jpg", "/d/IMG_1.cr2", "/d/IMG_2.nef"] :=
  summary_total_amended ["/d/IMG_1.jpg", "/d/IMG_1.cr2", "/d/IMG_2.nef"]
    (by decide)

/-! ## Claim C9 -/

/-- C9 counterexample: with an extractor response carrying an empty
file-entry list (register mode, group `IMG_1.jpg` + `IMG_1.cr2`), the
descriptor submitted to the uploader has the companion `IMG_1.cr2` as its
FIRST entry — no entry corresponds to the master enriched with its storage
record, contradicting the claim's "including when the extractor's response
carries an empty or missing file-entry list". -/
theorem upload_entries_counterexample :
    (((uploadedSchemas (processGroup cfgReg emptyListC 1 groupA).2).getD 0
        dummySchema).image_file_list.getD []).map ImageFileSchema.filename
      = ["IMG_1.cr2"] ∧
    baseNameOf groupA.masterFile = "IMG_1.jpg" ∧
    (("IMG_1.cr2" : String) = "IMG_1.jpg" → False) := by decide

/-- C9 amended: for a group reaching the upload call, the submitted
descriptor's file-entry list is the extractor's list with its FIRST entry
(when one exists) enriched with the master's storage/provenance record,
followed by one metadata-free entry per companion, in companion order
(each carrying only filename/size/format/storage/provenance — the entry
type has no preview, hash or EXIF fields); when the extractor's list is
empty or missing, the submitted list consists of the companion entries
alone and no master entry is present. -/
theorem upload_entries_amended (cfg : ImportConfig) (C : Collaborators) (cid : Nat)
    (group : CompanionGroup) (schema0 : PhotoCreateSchema) (fp : String)
    (entries : List ImageFileSchema)
    (hext : C.process_image_file group.masterFile = .ok schema0)
    (hplace : (placeMaster cfg C group.masterFile).1 = .ok fp)
    (hcomp : (processCompanions cfg C (group.allFiles.map baseNameOf)
      group.companionFiles).1 = .ok entries) :
    (CallEvent.uploadCall
        (assembledSchema cfg schema0 (masterLsi cfg group fp) entries cid)
      ∈ (processGroup cfg C cid group).2) ∧
    entries.length = group.companionFiles.length ∧
    (∀ k, k < group.companionFiles.length →
      (entries.getD k dummyEntry).filename
        = baseNameOf (group.companionFiles.getD k "") ∧
      (entries.getD k dummyEntry).imported_info = some (batchImportedInfo cfg)) ∧
    (∀ (e0 : ImageFileSchema) (rest0 : List ImageFileSchema),
      schema0.image_file_list.getD [] = e0 :: rest0 →
      (assembledSchema cfg schema0 (masterLsi cfg group fp) entries
          cid).image_file_list
        = some (({ e0 with
                   local_storage_info := some (masterLsi cfg group fp),
                   imported_info := some (batchImportedInfo cfg) })
            :: (rest0 ++ entries))) ∧
    (schema0.image_file_list.getD [] = [] →
      (assembledSchema cfg schema0 (masterLsi cfg group fp) entries
          cid).image_file_list = some entries) := by
  have hup := processGroup_upload_mem cid hext hplace hcomp
  obtain ⟨hlen, hidx⟩ := processCompanions_shape cfg C
    (group.allFiles.map baseNameOf) group.companionFiles entries hcomp
  refine ⟨hup, hlen, ?_, ?_, ?_⟩
  · intro k hk
    have h := hidx k hk
    have hs := processCompanion_ok_shape cfg C (group.allFiles.map baseNameOf)
      (group.companionFiles.getD k "") (entries.getD k dummyEntry) h
    exact ⟨hs.1, hs.2.2⟩
  · intro e0 rest0 h
    simp [assembledSchema, h, enrichHead]
  · intro h
    simp [assembledSchema, h, enrichHead]

/-- Witness for the amended C9 at the jpg+cr2 group in register mode. -/
theorem upload_entries_amended_witness :
    (CallEvent.uploadCall
        (assembledSchema cfgReg schemaA (masterLsi cfgReg groupA "/d/IMG_1.jpg")
          entriesA 1)
      ∈ (processGroup cfgReg sampleC 1 groupA).2) ∧
    entriesA.length = groupA.companionFiles.length ∧
    (∀ k, k < groupA.companionFiles.length →
      (entriesA.getD k dummyEntry).filename
        = baseNameOf (groupA.companionFiles.getD k "") ∧
      (entriesA.getD k dummyEntry).imported_info
        = some (batchImportedInfo cfgReg)) ∧
    (∀ (e0 : ImageFileSchema) (rest0 : List ImageFileSchema),
      schemaA.image_file_list.getD [] = e0 :: rest0 →
      (assembledSchema cfgReg schemaA (masterLsi cfgReg groupA "/d/IMG_1.jpg")
          entriesA 1).image_file_list
        = some (({ e0 with
                   local_storage_info :=
                     some (masterLsi cfgReg groupA "/d/IMG_1.jpg"),
                   imported_info := some (batchImportedInfo cfgReg) })
            :: (rest0 ++ entriesA))) ∧
    (schemaA.image_file_list.getD [] = [] →
      (assembledSchema cfgReg schemaA (masterLsi cfgReg groupA "/d/IMG_1.jpg")
          entriesA 1).image_file_list = some entriesA) :=
  upload_entries_amended cfgReg sampleC 1 groupA schemaA "/d/IMG_1.jpg" entriesA
    (by decide) (by decide) (by decide)

end Imalink

